import Mathlib

/-!
Verification of the Blender texture-baking automation scripts
(`blender_texture_bakingBYMaterial_automation_ue5_v003.py`, per-material
variant, and its per-object predecessor).  The Python code is shallowly
embedded: the shading graph (`material.node_tree`) becomes an explicit
node/link structure, the scene becomes lists of meshes, slots and
materials, and the bake engine becomes a boolean oracle indexed by the
running count of bake calls.  All definitions are executable.
-/

namespace BlenderBake

/-! ### Shading-graph model

Mirrors the parts of `bpy`'s node-tree API the scripts use:
`nodes.new`, `nodes.get(name)`, `nodes.remove`, `links.new`,
socket `is_linked` checks, and iteration over `node_tree.links`.
A node records Blender's `node.type` string (e.g. `'EMISSION'`),
its `node.name`, its `select` flag and one scalar payload `dval`
standing for the single `default_value` the scripts read or write
(the Metallic input default on a Principled node, the output value
on a Value node).  `links.new(src, dst)` drops any pre-existing link
into the destination input socket, as Blender does. -/

structure SNode where
  nid : Nat
  ntype : String
  nm : String
  sel : Bool
  dval : Int
deriving DecidableEq, Repr

structure SLink where
  fromNode : Nat
  fromSock : String
  toNode : Nat
  toSock : String
deriving DecidableEq, Repr

structure NodeTree where
  nodes : List SNode
  links : List SLink
  activeNode : Option Nat
  nextId : Nat
deriving DecidableEq, Repr

def emptyTree : NodeTree := ⟨[], [], none, 0⟩

/-- `nodes.new(...)` : append a fresh node; Blender assigns the default
name of the node kind. -/
def nodesNew (g : NodeTree) (ntype nm : String) (dval : Int := 0) :
    NodeTree × Nat :=
  ({ g with nodes := g.nodes ++ [⟨g.nextId, ntype, nm, false, dval⟩],
            nextId := g.nextId + 1 }, g.nextId)

/-- `nodes.remove(node)` : drop the node and every link touching it. -/
def nodesRemove (g : NodeTree) (nid : Nat) : NodeTree :=
  { g with nodes := g.nodes.filter (fun n => n.nid ≠ nid),
           links := g.links.filter
             (fun l => l.fromNode ≠ nid ∧ l.toNode ≠ nid) }

/-- `links.new(from_socket, to_socket)` : a destination input socket holds
at most one link, so any existing link into it is replaced. -/
def linksNew (g : NodeTree) (fn : Nat) (fs : String) (tn : Nat)
    (ts : String) : NodeTree :=
  { g with links :=
      g.links.filter (fun l => ¬(l.toNode = tn ∧ l.toSock = ts))
        ++ [⟨fn, fs, tn, ts⟩] }

/-- `MaterialManager.setup_bake_node` : remove any node named
`Bake_Target`, create a fresh image-texture node with that name,
select it and make it the active node. -/
def setup_bake_node (g : NodeTree) : NodeTree :=
  let g1 := match g.nodes.find? (fun n => n.nm = "Bake_Target") with
    | some n => nodesRemove g n.nid
    | none => g
  let p := nodesNew g1 "TEX_IMAGE" "Bake_Target"
  let selNodes := p.1.nodes.map
    (fun n => if n.nid = p.2 then { n with sel := true } else n)
  { p.1 with nodes := selNodes, activeNode := some p.2 }

/-- `MaterialManager.setup_metallic_nodes` : snapshot all links, create an
emission node, locate (or create) the `Material Output` and Principled
nodes, feed the metallic source (upstream link, else a fresh Value node
holding the metallic default) into the emission strength, wire the
emission into the surface output, and return the snapshot. -/
def setup_metallic_nodes (g : NodeTree) : NodeTree × List SLink :=
  let original := g.links
  let pe := nodesNew g "EMISSION" "Emission"
  let g1 := pe.1
  let emitId := pe.2
  let po : NodeTree × Nat :=
    match g1.nodes.find? (fun n => n.nm = "Material Output") with
    | some n => (g1, n.nid)
    | none => nodesNew g1 "OUTPUT_MATERIAL" "Material Output"
  let g2 := po.1
  let outId := po.2
  let pp : NodeTree × Nat × Int :=
    match g2.nodes.find? (fun n => n.ntype = "BSDF_PRINCIPLED") with
    | some n => (g2, n.nid, n.dval)
    | none =>
      let q := nodesNew g2 "BSDF_PRINCIPLED" "Principled BSDF"
      (q.1, q.2, 0)
  let g3 := pp.1
  let pId := pp.2.1
  let pDval := pp.2.2
  let g4 :=
    match g3.links.find? (fun l => l.toNode = pId ∧ l.toSock = "Metallic") with
    | some l => linksNew g3 l.fromNode l.fromSock emitId "Strength"
    | none =>
      let q := nodesNew g3 "VALUE" "Value" pDval
      linksNew q.1 q.2 "Value" emitId "Strength"
  let g5 := linksNew g4 emitId "Emission" outId "Surface"
  (g5, original)

/-- The node-removal half of `MaterialManager.restore_material_links` :
every node whose `type` is `EMISSION` or `VALUE` is removed, together
with the links touching it. -/
def removeTemp (g : NodeTree) : NodeTree :=
  let badIds := (g.nodes.filter
      (fun n => n.ntype = "EMISSION" ∨ n.ntype = "VALUE")).map (·.nid)
  { g with
    nodes := g.nodes.filter
      (fun n => ¬(n.ntype = "EMISSION" ∨ n.ntype = "VALUE")),
    links := g.links.filter
      (fun l => ¬ l.fromNode ∈ badIds ∧ ¬ l.toNode ∈ badIds) }

/-- The link-recreation half of `restore_material_links` : replay
`links.new` over the snapshot. -/
def readdLinks (g : NodeTree) (snap : List SLink) : NodeTree :=
  snap.foldl (fun g l => linksNew g l.fromNode l.fromSock l.toNode l.toSock) g

/-- `MaterialManager.restore_material_links`. -/
def restore_material_links (g : NodeTree) (snap : List SLink) : NodeTree :=
  readdLinks (removeTemp g) snap

/-! ### Scene and UV model

A mesh carries its ordered material-slot list (`obj.material_slots`,
each slot referencing at most one material), its UV layers (each layer
a loop-indexed array of `(u, v)` coordinates; the first layer stands
for `uv_layers.active`), and its polygons (`material_index` plus
`loop_indices`).  Materials live in a registry and are referenced from
slots by an integer id, an arena-style rendering of Blender's
by-object-identity references.  UV coordinates are rationals; Python's
`round(x, 4)` becomes rounding to a multiple of `1/10000`. -/

structure MSlot where
  material : Option Nat
deriving DecidableEq, Repr

structure Polygon where
  material_index : Nat
  loop_indices : List Nat
deriving DecidableEq, Repr

structure Mesh where
  nm : String
  material_slots : List MSlot
  uv_layers : List (List (ℚ × ℚ))
  polygons : List Polygon
deriving DecidableEq, Repr

structure MaterialObj where
  mid : Nat
  mname : String
  graph : NodeTree
deriving DecidableEq, Repr

structure Scene where
  meshes : List Mesh
  materials : List MaterialObj
  nextMid : Nat
deriving DecidableEq, Repr

def defMesh : Mesh := ⟨"", [], [], []⟩

/-- The result of `MaterialManager.get_uv_hash` : either one of the three
string sentinels the Python code returns, or `hash(tuple(sorted_coords))`
for a non-empty coordinate list.  The integer hash itself is abstracted
as a parameter `hf` below, so theorems hold for every concrete hash
function. -/
inductive UVHash where
  | noUV
  | materialNotFound
  | emptyUV
  | h (v : Int)
deriving DecidableEq, Repr

/-- The membership test `uv_hash not in ['no_uv', 'material_not_found',
'empty_uv']` : an integer hash never equals a sentinel string. -/
def UVHash.isSentinel : UVHash → Bool
  | .h _ => false
  | _ => true

/-- Python's `round(x, 4)` : round to four decimal places.  The rounded
value is represented in fixed point as an integer count of `1/10000`
units: `round4 x = ⌊10000 * x + 1/2⌋`, computed on the rational's
numerator and denominator with integer floor division. -/
def round4 (x : ℚ) : Int :=
  Int.fdiv (2 * (x.num * 10000) + (x.den : Int)) (2 * (x.den : Int))

def round4uv (q : ℚ × ℚ) : Int × Int := (round4 q.1, round4 q.2)

/-- Lexicographic order on rounded coordinate pairs, as Python's tuple
comparison used by `uv_coords.sort()` : `u` ascending, then `v`. -/
def uvLe (a b : Int × Int) : Prop := a.1 < b.1 ∨ (a.1 = b.1 ∧ a.2 ≤ b.2)

instance : DecidableRel uvLe := fun a b => by
  unfold uvLe; infer_instance

instance : IsTotal (Int × Int) uvLe where
  total a b := by
    rcases lt_trichotomy a.1 b.1 with h | h | h
    · exact Or.inl (Or.inl h)
    · rcases le_total a.2 b.2 with h2 | h2
      · exact Or.inl (Or.inr ⟨h, h2⟩)
      · exact Or.inr (Or.inr ⟨h.symm, h2⟩)
    · exact Or.inr (Or.inl h)

instance : IsTrans (Int × Int) uvLe where
  trans a b c hab hbc := by
    rcases hab with h1 | ⟨e1, h1⟩
    · rcases hbc with h2 | ⟨e2, _⟩
      · exact Or.inl (h1.trans h2)
      · exact Or.inl (e2 ▸ h1)
    · rcases hbc with h2 | ⟨e2, h2⟩
      · exact Or.inl (e1 ▸ h2)
      · exact Or.inr ⟨e1.trans e2, h1.trans h2⟩

instance : IsAntisymm (Int × Int) uvLe where
  antisymm a b hab hba := by
    rcases hab with h1 | ⟨e1, h1⟩
    · rcases hba with h2 | ⟨e2, _⟩
      · exact absurd (h1.trans h2) (lt_irrefl _)
      · exact absurd h1 (e2 ▸ lt_irrefl _)
    · rcases hba with h2 | ⟨e2, h2⟩
      · exact absurd h2 (e1 ▸ lt_irrefl _)
      · exact Prod.ext e1 (le_antisymm h1 h2)

/-- One polygon's contribution to the collected UV coordinates: skipped
unless its `material_index` is in range (the explicit bounds check in
`get_uv_hash`) and its slot references the target material; otherwise
its loops' active-layer coordinates, rounded to 4 decimals. -/
def polyContrib (slots : List MSlot) (uvdata : List (ℚ × ℚ))
    (mat : Option Nat) (p : Polygon) : List (Int × Int) :=
  if p.material_index < slots.length then
    if (slots.getD p.material_index ⟨none⟩).material = mat then
      p.loop_indices.map (fun li => round4uv (uvdata.getD li (0, 0)))
    else []
  else []

/-- `MaterialManager.get_uv_hash(obj, material)` : sentinel `no_uv` when
the mesh has no UV layer, sentinel `material_not_found` when the
material is in no slot, else collect the UV coordinates of the faces
using the material, sort them lexicographically and hash — or sentinel
`empty_uv` when nothing was collected. -/
def get_uv_hash (hf : List (Int × Int) → Int) (m : Mesh) (mat : Option Nat) :
    UVHash :=
  if m.uv_layers = [] then .noUV
  else if ¬ (mat ∈ m.material_slots.map (·.material)) then .materialNotFound
  else
    let coords := m.polygons.flatMap
      (polyContrib m.material_slots (m.uv_layers.headD []) mat)
    let sorted := List.insertionSort uvLe coords
    if sorted = [] then .emptyUV else .h (hf sorted)

/-! ### Shared-material resolver (`MaterialManager.duplicate_shared_materials`)

Pass 1 builds `material_usage`, an insertion-ordered dictionary keyed by
`(material, uv_hash)` whose values are the `(object, slot)` usages; the
model keys usages by `(mesh index, slot index)` into the scene.  Pass 2
walks the groups: a group with more than one member and a non-sentinel
hash renames its material as master, then re-hashes every further
member, cloning the material into that member's slot whenever the fresh
hash is a differing non-sentinel value. -/

abbrev UsageKey := Nat × UVHash
abbrev UsageList := List ((Nat × UVHash) × List (Nat × Nat))

/-- `material_usage.setdefault(key, []).append(usage)` on an
insertion-ordered dictionary rendered as an association list. -/
def insertUsage (acc : UsageList) (k : UsageKey) (u : Nat × Nat) :
    UsageList :=
  if acc.any (fun e => e.1 = k) then
    acc.map (fun e => if e.1 = k then (e.1, e.2 ++ [u]) else e)
  else acc ++ [(k, [u])]

/-- Pass 1, inner loop over one mesh's slots (`j` is the running slot
index). -/
def buildSlots (hf : List (Int × Int) → Int) (mesh : Mesh) (i : Nat) :
    List MSlot → Nat → UsageList → UsageList
  | [], _, acc => acc
  | sl :: rest, j, acc =>
    let acc' := match sl.material with
      | some mid => insertUsage acc (mid, get_uv_hash hf mesh (some mid)) (i, j)
      | none => acc
    buildSlots hf mesh i rest (j + 1) acc'

/-- Pass 1, outer loop over the scene's meshes (`i` is the running mesh
index). -/
def buildMeshes (hf : List (Int × Int) → Int) :
    List Mesh → Nat → UsageList → UsageList
  | [], _, acc => acc
  | m :: rest, i, acc =>
    buildMeshes hf rest (i + 1) (buildSlots hf m i m.material_slots 0 acc)

def buildUsages (hf : List (Int × Int) → Int) (s : Scene) : UsageList :=
  buildMeshes hf s.meshes 0 []

/-- The slot contents at mesh `i`, slot `j`. -/
def slotMat (s : Scene) (i j : Nat) : Option Nat :=
  ((s.meshes.getD i defMesh).material_slots.getD j ⟨none⟩).material

def meshNm (s : Scene) (i : Nat) : String := (s.meshes.getD i defMesh).nm

/-- Rename material `mid` to `f"{name}_MASTER_{objName}"`. -/
def renameMaster (s : Scene) (mid : Nat) (objName : String) : Scene :=
  { s with materials := s.materials.map (fun mo =>
      if mo.mid = mid then
        { mo with mname := mo.mname ++ "_MASTER_" ++ objName } else mo) }

/-- `original_material.copy()` plus `slot.material = new_material` : the
clone takes a fresh id, the master's current name extended with
`_INSTANCE_{obj.name}`, and a copy of the master's graph. -/
def cloneInto (s : Scene) (origMid : Nat) (i j : Nat) : Scene :=
  match s.materials.find? (fun mo => mo.mid = origMid) with
  | none => s
  | some orig =>
    let newM : MaterialObj :=
      ⟨s.nextMid, orig.mname ++ "_INSTANCE_" ++ meshNm s i, orig.graph⟩
    let oldMesh := s.meshes.getD i defMesh
    let newSlots := oldMesh.material_slots.set j ⟨some s.nextMid⟩
    let newMesh := { oldMesh with material_slots := newSlots }
    { meshes := s.meshes.set i newMesh,
      materials := s.materials ++ [newM],
      nextMid := s.nextMid + 1 }

/-- Pass 2, handling of one non-first member of a group: recompute the
member's hash against its current slot material and clone the group's
material into the slot when the hash is a differing non-sentinel. -/
def processUsage (hf : List (Int × Int) → Int) (origMid : Nat)
    (groupHash : UVHash) (s : Scene) (u : Nat × Nat) : Scene :=
  let obj := s.meshes.getD u.1 defMesh
  let cur := get_uv_hash hf obj (slotMat s u.1 u.2)
  if cur ≠ groupHash ∧ cur.isSentinel = false then
    cloneInto s origMid u.1 u.2
  else s

/-- Pass 2, handling of one `(material, uv_hash)` group. -/
def processGroup (hf : List (Int × Int) → Int) (s : Scene) (k : UsageKey)
    (us : List (Nat × Nat)) : Scene :=
  if us.length > 1 ∧ k.2.isSentinel = false then
    match us with
    | [] => s
    | u0 :: rest =>
      let s1 := renameMaster s k.1 (meshNm s u0.1)
      rest.foldl (processUsage hf k.1 k.2) s1
  else s

/-- `MaterialManager.duplicate_shared_materials`. -/
def duplicate_shared_materials (hf : List (Int × Int) → Int) (s : Scene) :
    Scene :=
  (buildUsages hf s).foldl (fun acc e => processGroup hf acc e.1 e.2) s

/-- `MaterialManager.cleanup_unused_materials` : drop every material no
slot references (`material.users == 0`). -/
def cleanup_unused_materials (s : Scene) : Scene :=
  { s with materials := s.materials.filter (fun mo =>
      s.meshes.any (fun m =>
        m.material_slots.any (fun sl => sl.material = some mo.mid))) }

/-- `MaterialManager.get_all_materials` : the set of materials referenced
by at least one slot (determinized to first-occurrence order). -/
def get_all_materials (s : Scene) : List Nat :=
  s.meshes.foldl (fun acc m =>
    m.material_slots.foldl (fun acc sl =>
      match sl.material with
      | some mid => if mid ∈ acc then acc else acc ++ [mid]
      | none => acc) acc) []

/-! ### Output naming (`TextureBaker._bake_all_maps`, naming block)

`material.name.split('_')` and `"_".join(...)` are modelled on character
lists; Python's `str.split(sep)` with an explicit separator keeps empty
pieces, as does this. -/

/-- The name-assembly logic of `_bake_all_maps` : for a name containing
an underscore, `f"{parts[0]}_{'_'.join(parts[1:])}_{suffix}"`, otherwise
`f"{name}_{suffix}"`. -/
def mapNameL (nameL sufL : List Char) : List Char :=
  match nameL.splitOn '_' with
  | p0 :: p1 :: rest =>
    p0 ++ '_' :: (List.intercalate ['_'] (p1 :: rest) ++ '_' :: sufL)
  | _ => nameL ++ '_' :: sufL

def mapName (nm suf : String) : String := ⟨mapNameL nm.data suf.data⟩

/-! ### Bake orchestrator (`TextureBaker`)

The external bake engine (`bpy.ops.object.bake`) is a boolean oracle
indexed by the running count of bake calls: `false` means that call
raised.  Observable actions are recorded as events. -/

inductive Ev where
  | selectActive (meshIdx : Nat)
  | setupBakeNode (matId : Nat)
  | setupMetallic (matId : Nat)
  | restoreLinks (matId : Nat)
  | bakeCall (bakeType : String)
  | createImage (nm : String)
  | saveImage (nm : String)
  | procMaterial (matId : Nat)
deriving DecidableEq, Repr

/-- `BakeConstants.BAKE_TYPES`, in dictionary insertion order. -/
def BAKE_TYPES : List (String × String) :=
  [("DIFFUSE", "diffuse"), ("NORMAL", "normal"), ("ROUGHNESS", "roughness"),
   ("AO", "ao"), ("EMIT", "metallic")]

structure BRes where
  graph : NodeTree
  evs : List Ev
  ncalls : Nat
  ok : Bool
deriving Repr

/-- One iteration of the channel loop in `_bake_all_maps` : build the
output name, create the image, reroute metallic through emission when
the channel is `metallic` (switching the effective bake type to
`EMIT`), invoke the bake, save on success, and — in the `finally`
block — restore the snapshot links, but only when `original_links`
is truthy, i.e. a non-empty list. -/
def bakeOne (oracle : Nat → Bool) (matId : Nat) (mname : String)
    (g : NodeTree) (n : Nat) (bt suffix : String) : BRes :=
  let map_name := mapName mname suffix
  let pm : NodeTree × Option (List SLink) × List Ev :=
    if suffix = "metallic" then
      let q := setup_metallic_nodes g
      (q.1, some q.2, [Ev.setupMetallic matId])
    else (g, none, [])
  let g1 := pm.1
  let snap := pm.2.1
  let effType := if suffix = "metallic" then "EMIT" else bt
  let ok := oracle n
  let evsBake := [Ev.bakeCall effType] ++
    (if ok then [Ev.saveImage (map_name ++ ".png")] else [])
  let pr : NodeTree × List Ev :=
    match snap with
    | some (l :: ls) =>
      (restore_material_links g1 (l :: ls), [Ev.restoreLinks matId])
    | _ => (g1, [])
  ⟨pr.1, [Ev.createImage map_name] ++ pm.2.2 ++ evsBake ++ pr.2, n + 1, ok⟩

/-- The channel loop of `_bake_all_maps` : a failed bake is caught and
aborts the remaining channels (`return False`). -/
def bakeAllAux (oracle : Nat → Bool) (matId : Nat) (mname : String) :
    List (String × String) → NodeTree → Nat → BRes
  | [], g, n => ⟨g, [], n, true⟩
  | (bt, suf) :: rest, g, n =>
    let r := bakeOne oracle matId mname g n bt suf
    if r.ok then
      let r2 := bakeAllAux oracle matId mname rest r.graph r.ncalls
      ⟨r2.graph, r.evs ++ r2.evs, r2.ncalls, r2.ok⟩
    else ⟨r.graph, r.evs, r.ncalls, false⟩

/-- `TextureBaker._bake_all_maps`. -/
def bake_all_maps (oracle : Nat → Bool) (matId : Nat) (mname : String)
    (g : NodeTree) (n : Nat) : BRes :=
  bakeAllAux oracle matId mname BAKE_TYPES g n

/-- Association-list insertion for the `uv_groups` dictionary of
`bake_material`. -/
def insertGroup (gs : List (UVHash × List Nat)) (h : UVHash) (i : Nat) :
    List (UVHash × List Nat) :=
  if gs.any (fun e => e.1 = h) then
    gs.map (fun e => if e.1 = h then (e.1, e.2 ++ [i]) else e)
  else gs ++ [(h, [i])]

/-- The UV-grouping loop of `bake_material` : meshes with a slot
referencing the material, grouped by non-sentinel UV hash. -/
def uvGroupsAux (hf : List (Int × Int) → Int) (matId : Nat) :
    List Mesh → Nat → List (UVHash × List Nat) → List (UVHash × List Nat)
  | [], _, gs => gs
  | m :: rest, i, gs =>
    let gs' :=
      if m.material_slots.any (fun sl => sl.material = some matId) then
        let h := get_uv_hash hf m (some matId)
        if h.isSentinel = false then insertGroup gs h i else gs
      else gs
    uvGroupsAux hf matId rest (i + 1) gs'

def uvGroups (hf : List (Int × Int) → Int) (meshes : List Mesh) (matId : Nat) :
    List (UVHash × List Nat) :=
  uvGroupsAux hf matId meshes 0 []

/-- Material-registry accessors used by the baking loop. -/
def matGraph (s : Scene) (matId : Nat) : NodeTree :=
  ((s.materials.find? (fun mo => mo.mid = matId)).map (·.graph)).getD emptyTree

def matNameD (s : Scene) (matId : Nat) : String :=
  ((s.materials.find? (fun mo => mo.mid = matId)).map (·.mname)).getD ""

def setMatGraph (s : Scene) (matId : Nat) (g : NodeTree) : Scene :=
  { s with materials := s.materials.map (fun mo =>
      if mo.mid = matId then { mo with graph := g } else mo) }

structure MRes where
  scene : Scene
  evs : List Ev
  ncalls : Nat
  ok : Bool
deriving Repr

/-- The per-UV-group loop of `bake_material` : select the group's first
object as the active bake target, install the bake node, run all
channels, and stop at the first failed group (`return False`). -/
def bakeGroups (hf : List (Int × Int) → Int) (oracle : Nat → Bool)
    (matId : Nat) : List (UVHash × List Nat) → Scene → Nat → MRes
  | [], s, n => ⟨s, [], n, true⟩
  | (hsh, objs) :: rest, s, n =>
    match objs with
    | [] => bakeGroups hf oracle matId rest s n
    | o :: _ =>
      let g1 := setup_bake_node (matGraph s matId)
      let s1 := setMatGraph s matId g1
      let r := bake_all_maps oracle matId (matNameD s1 matId) g1 n
      let s2 := setMatGraph s1 matId r.graph
      let evs := [Ev.selectActive o, Ev.setupBakeNode matId] ++ r.evs
      if r.ok then
        let r2 := bakeGroups hf oracle matId rest s2 r.ncalls
        ⟨r2.scene, evs ++ r2.evs, r2.ncalls, r2.ok⟩
      else ⟨s2, evs, r.ncalls, false⟩

/-- `TextureBaker.bake_material` : no non-sentinel UV group means the
material is reported failed. -/
def bake_material (hf : List (Int × Int) → Int) (oracle : Nat → Bool)
    (s : Scene) (matId : Nat) (n : Nat) : MRes :=
  let groups := uvGroups hf s.meshes matId
  if groups = [] then ⟨s, [], n, false⟩
  else bakeGroups hf oracle matId groups s n

structure XRes where
  scene : Scene
  results : List (Nat × Bool)
  success : Nat
  total : Nat
  ncalls : Nat
  evs : List Ev
deriving Repr

/-- The material loop of `TextureBaker.execute` : every material is
processed in turn regardless of earlier failures, and successes are
counted. -/
def execMats (hf : List (Int × Int) → Int) (oracle : Nat → Bool) :
    List Nat → Scene → Nat → Scene × List (Nat × Bool) × Nat × List Ev
  | [], s, n => (s, [], n, [])
  | m :: rest, s, n =>
    let r := bake_material hf oracle s m n
    let q := execMats hf oracle rest r.scene r.ncalls
    (q.1, (m, r.ok) :: q.2.1, q.2.2.1,
      Ev.procMaterial m :: (r.evs ++ q.2.2.2))

/-- `TextureBaker.execute` (per-material variant) : resolve shared
materials, enumerate referenced materials (an empty list raises and
aborts the run), bake each, then clean up unused materials. -/
def execute (hf : List (Int × Int) → Int) (oracle : Nat → Bool) (s : Scene) :
    XRes :=
  let s1 := duplicate_shared_materials hf s
  let mats := get_all_materials s1
  if mats = [] then ⟨s1, [], 0, 0, 0, []⟩
  else
    let q := execMats hf oracle mats s1 0
    ⟨cleanup_unused_materials q.1, q.2.1,
      (q.2.1.filter (·.2)).length, mats.length, q.2.2.1, q.2.2.2⟩

/-- The links list produced by replaying `links.new` over a snapshot. -/
def readdL (acc : List SLink) (snap : List SLink) : List SLink :=
  snap.foldl (fun acc l =>
    acc.filter (fun x => ¬(x.toNode = l.toNode ∧ x.toSock = l.toSock))
      ++ [l]) acc

def matNameQ (s : Scene) (mid : Nat) : Option String :=
  (s.materials.find? (fun mo => mo.mid = mid)).map (·.mname)

def UsageProp (hf : List (Int × Int) → Int) (s : Scene) (mid : Nat)
    (h : UVHash) (u : Nat × Nat) : Prop :=
  slotMat s u.1 u.2 = some mid ∧
  get_uv_hash hf (s.meshes.getD u.1 defMesh) (some mid) = h

def EntryProp (hf : List (Int × Int) → Int) (s : Scene)
    (e : (Nat × UVHash) × List (Nat × Nat)) : Prop :=
  ∀ u ∈ e.2, UsageProp hf s e.1.1 e.1.2 u

def AccProp (hf : List (Int × Int) → Int) (s : Scene) (acc : UsageList) : Prop :=
  ∀ e ∈ acc, EntryProp hf s e

def hasUsage (acc : UsageList) (k : UsageKey) (u : Nat × Nat) : Prop :=
  ∃ us, (k, us) ∈ acc ∧ u ∈ us

def keysND (acc : UsageList) : Prop := (acc.map (·.1)).Nodup

def isBakeEv : Ev → Bool
  | .bakeCall _ => true
  | _ => false

def isSelectEv : Ev → Bool
  | .selectActive _ => true
  | _ => false

def countBake (evs : List Ev) : Nat := (evs.filter isBakeEv).length

def isBakeT (bt : String) : Ev → Bool
  | .bakeCall b => b = bt
  | _ => false

def countBakeT (evs : List Ev) (bt : String) : Nat :=
  (evs.filter (isBakeT bt)).length

/-- Number of channels attempted when the oracle fails for the first
time within a window: every channel up to and including the first
failing bake call, and all of them when none fails. -/
def firstFailCount (oracle : Nat → Bool) : Nat → Nat → Nat
  | _, 0 => 0
  | n, k + 1 => if oracle n then 1 + firstFailCount oracle (n + 1) k else 1

def containsBT (g : NodeTree) : Prop :=
  ∃ n ∈ g.nodes, n.nm = "Bake_Target" ∧ n.ntype = "TEX_IMAGE"

/-! ### Concrete fixtures used by the closed theorems

`hfTest` is one concrete stand-in for Python's `hash` over the sorted
coordinate tuple; `gWF` is a minimal well-formed shading graph (output
node, principled node, surface link); the scenes pair two meshes `A`
and `B` sharing material `0` with identical respectively differing UV
layouts. -/

def hfTest : List (Int × Int) → Int :=
  fun l => l.foldl (fun a p => a * 31 + p.1 + p.2) 7

def oracleT : Nat → Bool := fun _ => true

def gWF : NodeTree :=
  ⟨[⟨0, "OUTPUT_MATERIAL", "Material Output", false, 0⟩,
    ⟨1, "BSDF_PRINCIPLED", "Principled BSDF", false, 0⟩],
   [⟨1, "BSDF", 0, "Surface"⟩], none, 2⟩

def meshTA : Mesh := ⟨"A", [⟨some 0⟩], [[(0, 0), (1, 1)]], [⟨0, [0, 1]⟩]⟩

def meshTB : Mesh := ⟨"B", [⟨some 0⟩], [[(0, 0), (1, 1)]], [⟨0, [0, 1]⟩]⟩

def meshTBd : Mesh := ⟨"B", [⟨some 0⟩], [[(5, 5), (7, 7)]], [⟨0, [0, 1]⟩]⟩

def sceneSameT : Scene := ⟨[meshTA, meshTB], [⟨0, "M", gWF⟩], 1⟩

def sceneDiffT : Scene := ⟨[meshTA, meshTBd], [⟨0, "M", gWF⟩], 1⟩

def gNoLinksT : NodeTree := ⟨[], [], none, 0⟩

def sceneZT : Scene := ⟨[meshTA], [⟨0, "Z", gNoLinksT⟩], 1⟩

def gArtistT : NodeTree :=
  ⟨[⟨0, "OUTPUT_MATERIAL", "Material Output", false, 0⟩,
    ⟨1, "BSDF_PRINCIPLED", "Principled BSDF", false, 0⟩,
    ⟨2, "VALUE", "Value", false, 5⟩], [], none, 3⟩

def meshNoUV_A : Mesh := ⟨"A", [⟨some 0⟩], [], [⟨0, [0]⟩]⟩

def meshNoUV_B : Mesh := ⟨"B", [⟨some 0⟩], [], []⟩

def sceneNoUVT : Scene := ⟨[meshNoUV_A, meshNoUV_B], [⟨0, "M", gWF⟩], 1⟩

/-! ### Lemmas: output naming -/

lemma intercalate_cons_cons (sep a b : List Char) (t : List (List Char)) :
    List.intercalate sep (a :: b :: t) =
      a ++ sep ++ List.intercalate sep (b :: t) := by
  simp [List.intercalate, List.intersperse]

/-- Both branches of the naming logic produce `name_suffix` : rebuilding
`parts[0]` and `'_'.join(parts[1:])` around an underscore reconstitutes
the whole material name. -/
lemma mapNameL_eq (l s : List Char) : mapNameL l s = l ++ '_' :: s := by
  unfold mapNameL
  rcases h : l.splitOn '_' with _ | ⟨p0, _ | ⟨p1, rest⟩⟩
  · rfl
  · rfl
  · have hs : List.intercalate ['_'] (l.splitOn '_') = l := by
      apply List.intercalate_splitOn
    rw [h, intercalate_cons_cons] at hs
    rw [← hs]
    simp [List.append_assoc]

/-! ### Lemmas: UV fingerprints -/

lemma flatMap_perm_sort (f : Polygon → List (Int × Int))
    {p1 p2 : List Polygon} (hp : p1.Perm p2) :
    List.insertionSort uvLe (p1.flatMap f) =
      List.insertionSort uvLe (p2.flatMap f) :=
  List.eq_of_perm_of_sorted
    (((List.perm_insertionSort _ _).trans (hp.flatMap_right f)).trans
      (List.perm_insertionSort _ _).symm)
    (List.sorted_insertionSort _ _) (List.sorted_insertionSort _ _)

/-- Core of C5 : the fingerprint is invariant under reordering of the
polygon list. -/
lemma get_uv_hash_perm_aux (hf : List (Int × Int) → Int) (nm : String)
    (slots : List MSlot) (uvs : List (List (ℚ × ℚ)))
    {p1 p2 : List Polygon} (mat : Option Nat) (hp : p1.Perm p2) :
    get_uv_hash hf ⟨nm, slots, uvs, p1⟩ mat =
      get_uv_hash hf ⟨nm, slots, uvs, p2⟩ mat := by
  unfold get_uv_hash
  dsimp only
  rw [flatMap_perm_sort _ hp]

lemma flatMap_filter_eq {α β : Type} (l : List α) (q : α → Bool)
    (f : α → List β) (h : ∀ x ∈ l, q x = false → f x = []) :
    (l.filter q).flatMap f = l.flatMap f := by
  induction l with
  | nil => rfl
  | cons x xs ih =>
    have ih' := ih (fun y hy => h y (List.mem_cons_of_mem _ hy))
    cases hq : q x with
    | true => simp [List.filter_cons, hq, ih']
    | false => simp [List.filter_cons, hq, ih', h x (List.mem_cons_self x xs) hq]

/-- Core of C9 : polygons whose material index is out of range contribute
nothing, so dropping them leaves the fingerprint unchanged. -/
lemma get_uv_hash_filter_valid (hf : List (Int × Int) → Int) (nm : String)
    (slots : List MSlot) (uvs : List (List (ℚ × ℚ)))
    (polys : List Polygon) (mat : Option Nat) :
    get_uv_hash hf
        ⟨nm, slots, uvs,
          polys.filter (fun p => p.material_index < slots.length)⟩ mat =
      get_uv_hash hf ⟨nm, slots, uvs, polys⟩ mat := by
  unfold get_uv_hash
  rw [flatMap_filter_eq]
  intro p _ hq
  unfold polyContrib
  rw [if_neg]
  simpa using hq

lemma polyContrib_invalid (slots : List MSlot) (uvdata : List (ℚ × ℚ))
    (mat : Option Nat) (p : Polygon)
    (h : ¬ p.material_index < slots.length) :
    polyContrib slots uvdata mat p = [] := by
  unfold polyContrib
  rw [if_neg h]

/-! ### Lemmas: graph round trip (reroute / restore) -/

lemma find?_append_some {α : Type} {p : α → Bool} {l1 l2 : List α} {a : α}
    (h : l1.find? p = some a) : (l1 ++ l2).find? p = some a := by
  rw [List.find?_append, h]; rfl

lemma readdLinks_nodes (snap : List SLink) : ∀ g : NodeTree,
    (readdLinks g snap).nodes = g.nodes := by
  induction snap with
  | nil => intro g; rfl
  | cons l ls ih => intro g; exact ih _

lemma readdLinks_links (snap : List SLink) : ∀ g : NodeTree,
    (readdLinks g snap).links = readdL g.links snap := by
  induction snap with
  | nil => intro g; rfl
  | cons l ls ih => intro g; exact ih _

/-- Membership after replaying the snapshot: a link is present iff it is
in the snapshot, or it survived untouched because no snapshot link
targets its input socket.  Requires the snapshot's destination sockets
to be pairwise distinct (each input socket holds at most one link). -/
lemma mem_readdL : ∀ (snap acc : List SLink),
    snap.Pairwise (fun a b => ¬(a.toNode = b.toNode ∧ a.toSock = b.toSock)) →
    ∀ x, (x ∈ readdL acc snap ↔ x ∈ snap ∨
      (x ∈ acc ∧ ∀ l ∈ snap, ¬(x.toNode = l.toNode ∧ x.toSock = l.toSock))) := by
  intro snap
  induction snap with
  | nil => intro acc _ x; simp [readdL]
  | cons l ls ih =>
    intro acc hnd x
    obtain ⟨hl, hnd'⟩ := List.pairwise_cons.mp hnd
    have step : readdL acc (l :: ls) =
        readdL (acc.filter
          (fun y => ¬(y.toNode = l.toNode ∧ y.toSock = l.toSock)) ++ [l]) ls :=
      rfl
    rw [step, ih _ hnd' x]
    constructor
    · rintro (hx | ⟨hx, hall⟩)
      · exact Or.inl (List.mem_cons_of_mem _ hx)
      · rcases List.mem_append.mp hx with hx' | hx'
        · obtain ⟨hxa, hcond⟩ := List.mem_filter.mp hx'
          refine Or.inr ⟨hxa, ?_⟩
          intro t ht
          rcases List.mem_cons.mp ht with rfl | ht'
          · simp only [decide_eq_true_eq] at hcond
            exact hcond
          · exact hall t ht'
        · have hxl : x = l := by simpa using hx'
          exact Or.inl (hxl ▸ List.mem_cons_self _ _)
    · rintro (hx | ⟨hx, hall⟩)
      · rcases List.mem_cons.mp hx with rfl | hx'
        · refine Or.inr ⟨List.mem_append_right _ (by simp), ?_⟩
          intro t ht
          exact hl t ht
        · exact Or.inl hx'
      · refine Or.inr ⟨List.mem_append_left _ ?_, fun t ht =>
          hall t (List.mem_cons_of_mem _ ht)⟩
        refine List.mem_filter.mpr ⟨hx, ?_⟩
        simp only [decide_eq_true_eq]
        exact hall l (List.mem_cons_self _ _)

/-- Shape of the reroute when the output and principled nodes are found
and the metallic input is driven by a link `ml`. -/
lemma setup_metallic_linked_spec {g : NodeTree} {o pn : SNode} {ml : SLink}
    (ho : g.nodes.find? (fun n => n.nm = "Material Output") = some o)
    (hp : g.nodes.find? (fun n => n.ntype = "BSDF_PRINCIPLED") = some pn)
    (hml : g.links.find?
      (fun l => l.toNode = pn.nid ∧ l.toSock = "Metallic") = some ml)
    (hfreshL : ∀ l ∈ g.links, l.toNode < g.nextId)
    (hOutId : o.nid < g.nextId) :
    setup_metallic_nodes g =
      ({ nodes := g.nodes ++ [⟨g.nextId, "EMISSION", "Emission", false, 0⟩],
         links := g.links.filter
             (fun x => ¬(x.toNode = o.nid ∧ x.toSock = "Surface"))
           ++ [⟨ml.fromNode, ml.fromSock, g.nextId, "Strength"⟩,
               ⟨g.nextId, "Emission", o.nid, "Surface"⟩],
         activeNode := g.activeNode, nextId := g.nextId + 1 }, g.links) := by
  have hfilter1 : g.links.filter
      (fun x => ¬(x.toNode = g.nextId ∧ x.toSock = "Strength")) = g.links := by
    rw [List.filter_eq_self]
    intro l hl
    simp only [decide_eq_true_eq]
    intro ⟨h1, _⟩
    exact absurd h1 (Nat.ne_of_lt (hfreshL l hl))
  unfold setup_metallic_nodes
  dsimp only [nodesNew]
  rw [find?_append_some ho, find?_append_some hp]
  dsimp only
  rw [hml]
  dsimp only [linksNew]
  rw [hfilter1]
  have hne : g.nextId ≠ o.nid := (Nat.ne_of_lt hOutId).symm
  simp [List.filter_append, List.filter_cons, hne, List.append_assoc]

/-- Shape of the reroute when the output and principled nodes are found
and the metallic input is unlinked: a fresh Value node carries the
metallic scalar. -/
lemma setup_metallic_unlinked_spec {g : NodeTree} {o pn : SNode}
    (ho : g.nodes.find? (fun n => n.nm = "Material Output") = some o)
    (hp : g.nodes.find? (fun n => n.ntype = "BSDF_PRINCIPLED") = some pn)
    (hml : g.links.find?
      (fun l => l.toNode = pn.nid ∧ l.toSock = "Metallic") = none)
    (hfreshL : ∀ l ∈ g.links, l.toNode < g.nextId)
    (hOutId : o.nid < g.nextId) :
    setup_metallic_nodes g =
      ({ nodes := g.nodes ++ [⟨g.nextId, "EMISSION", "Emission", false, 0⟩,
           ⟨g.nextId + 1, "VALUE", "Value", false, pn.dval⟩],
         links := g.links.filter
             (fun x => ¬(x.toNode = o.nid ∧ x.toSock = "Surface"))
           ++ [⟨g.nextId + 1, "Value", g.nextId, "Strength"⟩,
               ⟨g.nextId, "Emission", o.nid, "Surface"⟩],
         activeNode := g.activeNode, nextId := g.nextId + 2 }, g.links) := by
  have hfilter1 : g.links.filter
      (fun x => ¬(x.toNode = g.nextId ∧ x.toSock = "Strength")) = g.links := by
    rw [List.filter_eq_self]
    intro l hl
    simp only [decide_eq_true_eq]
    intro ⟨h1, _⟩
    exact absurd h1 (Nat.ne_of_lt (hfreshL l hl))
  unfold setup_metallic_nodes
  dsimp only [nodesNew]
  rw [find?_append_some ho, find?_append_some hp]
  dsimp only
  rw [hml]
  dsimp only [linksNew]
  rw [hfilter1]
  have hne : g.nextId ≠ o.nid := (Nat.ne_of_lt hOutId).symm
  simp [List.filter_append, List.filter_cons, hne, List.append_assoc]

/-- `removeTemp` on a graph consisting of a clean base plus
emission/value scratch nodes and their links removes exactly the
scratch. -/
lemma removeTemp_shape (base extra : List SNode) (L extraL : List SLink)
    (act : Option Nat) (k : Nat)
    (hbase : ∀ n ∈ base, n.ntype ≠ "EMISSION" ∧ n.ntype ≠ "VALUE")
    (hextra : ∀ n ∈ extra, n.ntype = "EMISSION" ∨ n.ntype = "VALUE")
    (hL : ∀ l ∈ L, ¬ l.fromNode ∈ extra.map (·.nid) ∧
      ¬ l.toNode ∈ extra.map (·.nid))
    (hextraL : ∀ l ∈ extraL, l.fromNode ∈ extra.map (·.nid) ∨
      l.toNode ∈ extra.map (·.nid)) :
    removeTemp ⟨base ++ extra, L ++ extraL, act, k⟩ = ⟨base, L, act, k⟩ := by
  have hbadf : base.filter
      (fun n => n.ntype = "EMISSION" ∨ n.ntype = "VALUE") = [] := by
    rw [List.filter_eq_nil_iff]
    intro n hn
    simp only [decide_eq_true_eq, not_or]
    exact ⟨(hbase n hn).1, (hbase n hn).2⟩
  have hextraf : extra.filter
      (fun n => n.ntype = "EMISSION" ∨ n.ntype = "VALUE") = extra := by
    rw [List.filter_eq_self]
    intro n hn
    simp only [decide_eq_true_eq]
    exact hextra n hn
  have hkeep : base.filter
      (fun n => ¬(n.ntype = "EMISSION" ∨ n.ntype = "VALUE")) = base := by
    rw [List.filter_eq_self]
    intro n hn
    simp only [decide_eq_true_eq, not_or]
    exact ⟨(hbase n hn).1, (hbase n hn).2⟩
  have hdrop : extra.filter
      (fun n => ¬(n.ntype = "EMISSION" ∨ n.ntype = "VALUE")) = [] := by
    rw [List.filter_eq_nil_iff]
    intro n hn
    simp only [decide_eq_true_eq, not_not]
    exact hextra n hn
  have hLkeep : L.filter (fun l =>
      ¬ l.fromNode ∈ extra.map (·.nid) ∧
      ¬ l.toNode ∈ extra.map (·.nid)) = L := by
    rw [List.filter_eq_self]
    intro l hl
    simp only [decide_eq_true_eq]
    exact hL l hl
  have hLdrop : extraL.filter (fun l =>
      ¬ l.fromNode ∈ extra.map (·.nid) ∧
      ¬ l.toNode ∈ extra.map (·.nid)) = [] := by
    rw [List.filter_eq_nil_iff]
    intro l hl
    simp only [decide_eq_true_eq, not_and, not_not]
    intro h1
    rcases hextraL l hl with h | h
    · exact absurd h h1
    · exact h
  unfold removeTemp
  dsimp only
  simp only [List.filter_append, hbadf, hextraf, hkeep, hdrop,
    List.nil_append, List.append_nil, hLkeep, hLdrop]

/-- Round trip of the metallic reroute for a well-formed graph with an
output node, a principled node and no pre-existing emission/value
nodes: nodes are restored exactly, links as a set. -/
lemma roundtrip_aux (g : NodeTree)
    (H0 : ∀ n ∈ g.nodes, n.nid < g.nextId)
    (H1 : ∀ l ∈ g.links, l.fromNode < g.nextId ∧ l.toNode < g.nextId)
    (H2 : ∀ n ∈ g.nodes, n.ntype ≠ "EMISSION" ∧ n.ntype ≠ "VALUE")
    (H3 : (g.nodes.find? (fun n => n.nm = "Material Output")).isSome = true)
    (H4 : (g.nodes.find?
      (fun n => n.ntype = "BSDF_PRINCIPLED")).isSome = true)
    (H5 : g.links.Pairwise
      (fun a b => ¬(a.toNode = b.toNode ∧ a.toSock = b.toSock))) :
    (setup_metallic_nodes g).2 = g.links ∧
    (restore_material_links (setup_metallic_nodes g).1
      (setup_metallic_nodes g).2).nodes = g.nodes ∧
    ∀ l, l ∈ (restore_material_links (setup_metallic_nodes g).1
      (setup_metallic_nodes g).2).links ↔ l ∈ g.links := by
  obtain ⟨o, ho⟩ := Option.isSome_iff_exists.mp H3
  obtain ⟨pn, hpn⟩ := Option.isSome_iff_exists.mp H4
  have hOutId : o.nid < g.nextId := H0 o (List.mem_of_find?_eq_some ho)
  have hfreshL : ∀ l ∈ g.links, l.toNode < g.nextId := fun l hl => (H1 l hl).2
  have hFsub : ∀ x ∈ g.links.filter
      (fun y => ¬(y.toNode = o.nid ∧ y.toSock = "Surface")), x ∈ g.links :=
    fun x hx => (List.mem_filter.mp hx).1
  have hmemF : ∀ x, x ∈ readdL (g.links.filter
      (fun y => ¬(y.toNode = o.nid ∧ y.toSock = "Surface"))) g.links ↔
      x ∈ g.links := by
    intro x
    rw [mem_readdL g.links _ H5 x]
    constructor
    · rintro (hx | ⟨hx, _⟩)
      · exact hx
      · exact hFsub x hx
    · exact Or.inl
  rcases hml : g.links.find?
      (fun l => l.toNode = pn.nid ∧ l.toSock = "Metallic") with _ | ml
  · rw [setup_metallic_unlinked_spec ho hpn hml hfreshL hOutId]
    dsimp only
    unfold restore_material_links
    rw [removeTemp_shape]
    · refine ⟨rfl, readdLinks_nodes _ _, ?_⟩
      intro l
      rw [readdLinks_links]
      exact hmemF l
    · exact H2
    · intro n hn
      rcases List.mem_cons.mp hn with rfl | hn'
      · exact Or.inl rfl
      · rcases List.mem_cons.mp hn' with rfl | h
        · exact Or.inr rfl
        · exact absurd h (List.not_mem_nil _)
    · intro l hl
      have hl' := List.mem_filter.mp hl
      have := H1 l hl'.1
      simp only [List.map_cons, List.map_nil, List.mem_cons,
        List.not_mem_nil, or_false]
      omega
    · intro l hl
      rcases List.mem_cons.mp hl with rfl | hl'
      · left; simp
      · rcases List.mem_cons.mp hl' with rfl | h
        · left; simp
        · exact absurd h (List.not_mem_nil _)
  · rw [setup_metallic_linked_spec ho hpn hml hfreshL hOutId]
    dsimp only
    unfold restore_material_links
    rw [removeTemp_shape]
    · refine ⟨rfl, readdLinks_nodes _ _, ?_⟩
      intro l
      rw [readdLinks_links]
      exact hmemF l
    · exact H2
    · intro n hn
      rcases List.mem_cons.mp hn with rfl | hn'
      · exact Or.inl rfl
      · exact absurd hn' (List.not_mem_nil _)
    · intro l hl
      have hl' := List.mem_filter.mp hl
      have := H1 l hl'.1
      simp only [List.map_cons, List.map_nil, List.mem_cons,
        List.not_mem_nil, or_false]
      omega
    · intro l hl
      rcases List.mem_cons.mp hl with rfl | hl'
      · right; simp
      · rcases List.mem_cons.mp hl' with rfl | h
        · left; simp
        · exact absurd h (List.not_mem_nil _)

/-! ### Lemmas: the resolver never touches slots

Pass 2's clone branch can only fire when a member's re-computed hash
differs from its group's hash; since grouping already keyed on the hash
and nothing between the two computations changes the mesh data, the
re-computation always agrees and the branch is dead.  The lemmas below
establish this by a fold invariant. -/

lemma getD_of_getElem? {α : Type} {l : List α} {i : Nat} {x : α} (d : α)
    (h : l[i]? = some x) : l.getD i d = x := by
  rw [List.getD_eq_getElem?_getD, h]; rfl

lemma find?_map_update (ms : List MaterialObj) (mid tgt : Nat)
    (F : MaterialObj → MaterialObj) (hF : ∀ mo, (F mo).mid = mo.mid) :
    (ms.map (fun mo => if mo.mid = tgt then F mo else mo)).find?
        (fun mo => mo.mid = mid) =
      (ms.find? (fun mo => mo.mid = mid)).map
        (fun mo => if mo.mid = tgt then F mo else mo) := by
  induction ms with
  | nil => rfl
  | cons m ms ih =>
    by_cases hm : m.mid = mid
    · have h1 : ((if m.mid = tgt then F m else m).mid = mid) := by
        by_cases ht : m.mid = tgt
        · rw [if_pos ht, hF]; exact hm
        · rw [if_neg ht]; exact hm
      rw [List.map_cons]
      simp only [List.find?_cons]
      rw [decide_eq_true h1, decide_eq_true hm]
      rfl
    · have h1 : ¬((if m.mid = tgt then F m else m).mid = mid) := by
        by_cases ht : m.mid = tgt
        · rw [if_pos ht, hF]; exact hm
        · rw [if_neg ht]; exact hm
      rw [List.map_cons]
      simp only [List.find?_cons]
      rw [decide_eq_false h1, decide_eq_false hm]
      exact ih

lemma matNameQ_rename (s : Scene) (mid tgt : Nat) (objNm : String) :
    matNameQ (renameMaster s tgt objNm) mid =
      if mid = tgt then (matNameQ s mid).map (· ++ "_MASTER_" ++ objNm)
      else matNameQ s mid := by
  unfold matNameQ renameMaster
  dsimp only
  rw [find?_map_update s.materials mid tgt
    (fun mo => { mo with mname := mo.mname ++ "_MASTER_" ++ objNm })
    (fun _ => rfl)]
  rcases hfind : s.materials.find? (fun mo => mo.mid = mid) with _ | mo
  · rw [hfind]
    rcases Decidable.em (mid = tgt) with h | h <;> simp [h]
  · rw [hfind]
    have hmo : mo.mid = mid := by
      have := List.find?_some hfind
      simpa using this
    rcases Decidable.em (mid = tgt) with h | h
    · rw [if_pos h]
      simp [hmo, h]
    · rw [if_neg h]
      simp [hmo, h]

lemma renameMaster_meshes (s : Scene) (mid : Nat) (objNm : String) :
    (renameMaster s mid objNm).meshes = s.meshes := rfl

lemma insertUsage_sound {hf : List (Int × Int) → Int} {s : Scene}
    {acc : UsageList} {k : UsageKey} {u : Nat × Nat}
    (hacc : AccProp hf s acc) (hu : UsageProp hf s k.1 k.2 u) :
    AccProp hf s (insertUsage acc k u) := by
  unfold insertUsage
  split
  · intro e he
    obtain ⟨e0, he0, heq⟩ := List.mem_map.mp he
    by_cases hk : e0.1 = k
    · rw [if_pos hk] at heq
      intro u' hu'
      rw [← heq] at hu'
      rcases List.mem_append.mp hu' with h' | h'
      · have := hacc e0 he0 u' h'
        rw [← heq]
        exact this
      · have : u' = u := by simpa using h'
        rw [← heq, this]
        dsimp only
        rw [hk]
        exact hu
    · rw [if_neg hk] at heq
      rw [← heq]
      exact hacc e0 he0
  · intro e he
    rcases List.mem_append.mp he with h' | h'
    · exact hacc e h'
    · have : e = (k, [u]) := by simpa using h'
      rw [this]
      intro u' hu'
      have : u' = u := by simpa using hu'
      rw [this]
      exact hu

lemma buildSlots_sound {hf : List (Int × Int) → Int} {s : Scene} {mesh : Mesh}
    {i : Nat} : ∀ (slots : List MSlot) (j : Nat) (acc : UsageList),
    s.meshes.getD i defMesh = mesh →
    (∀ d sl, slots[d]? = some sl → mesh.material_slots[j + d]? = some sl) →
    AccProp hf s acc → AccProp hf s (buildSlots hf mesh i slots j acc)
  | [], _, _, _, _, hacc => hacc
  | sl :: rest, j, acc, hmesh, hsl, hacc => by
    rw [buildSlots]
    apply buildSlots_sound rest (j + 1)
    · exact hmesh
    · intro d sl' hd
      have := hsl (d + 1) sl' (by simpa using hd)
      rwa [show j + (d + 1) = j + 1 + d by omega] at this
    · rcases hm : sl.material with _ | mid
      · exact hacc
      · apply insertUsage_sound hacc
        constructor
        · unfold slotMat
          rw [hmesh]
          have hj := hsl 0 sl (by simp)
          rw [getD_of_getElem? _ (by simpa using hj), hm]
        · rw [hmesh]

lemma buildMeshes_sound {hf : List (Int × Int) → Int} {s : Scene} :
    ∀ (meshes : List Mesh) (i : Nat) (acc : UsageList),
    (∀ d m, meshes[d]? = some m → s.meshes[i + d]? = some m) →
    AccProp hf s acc → AccProp hf s (buildMeshes hf meshes i acc)
  | [], _, _, _, hacc => hacc
  | m :: rest, i, acc, hms, hacc => by
    rw [buildMeshes]
    apply buildMeshes_sound rest (i + 1)
    · intro d m' hd
      have := hms (d + 1) m' (by simpa using hd)
      rwa [show i + (d + 1) = i + 1 + d by omega] at this
    · apply buildSlots_sound m.material_slots 0
      · exact getD_of_getElem? _ (by simpa using hms 0 m (by simp))
      · intro d sl hd
        rwa [show (0 : Nat) + d = d by omega]
      · exact hacc

lemma buildUsages_sound (hf : List (Int × Int) → Int) (s : Scene) :
    AccProp hf s (buildUsages hf s) := by
  unfold buildUsages
  apply buildMeshes_sound s.meshes 0 []
  · intro d m hd
    rwa [show (0 : Nat) + d = d by omega]
  · intro e he
    exact absurd he (List.not_mem_nil _)

lemma processUsage_id {hf : List (Int × Int) → Int} {s0 s' : Scene} {mid : Nat}
    {h : UVHash} {u : Nat × Nat} (hmeshes : s'.meshes = s0.meshes)
    (hu : UsageProp hf s0 mid h u) : processUsage hf mid h s' u = s' := by
  unfold processUsage
  have hsl : slotMat s' u.1 u.2 = some mid := by
    have h1 := hu.1
    unfold slotMat at h1 ⊢
    rw [hmeshes]
    exact h1
  have hcur : get_uv_hash hf (s'.meshes.getD u.1 defMesh)
      (slotMat s' u.1 u.2) = h := by
    rw [hsl, hmeshes]
    exact hu.2
  simp only [List.getD_eq_getElem?_getD] at hcur
  simp [hcur]

lemma foldUsages_id {hf : List (Int × Int) → Int} {s0 : Scene} {mid : Nat}
    {h : UVHash} : ∀ (us : List (Nat × Nat)) (s' : Scene),
    (∀ u ∈ us, UsageProp hf s0 mid h u) → s'.meshes = s0.meshes →
    us.foldl (processUsage hf mid h) s' = s'
  | [], _, _, _ => rfl
  | u :: rest, s', hus, hmeshes => by
    rw [List.foldl_cons,
      processUsage_id hmeshes (hus u (List.mem_cons_self _ _))]
    exact foldUsages_id rest s' (fun u' hu' =>
      hus u' (List.mem_cons_of_mem _ hu')) hmeshes

/-- Under the pass-1 invariant the per-group pass either does nothing or
just renames the group's master material. -/
lemma processGroup_rename {hf : List (Int × Int) → Int} {s0 s' : Scene}
    {e : (Nat × UVHash) × List (Nat × Nat)} (he : EntryProp hf s0 e)
    (hmeshes : s'.meshes = s0.meshes)
    (hq : 1 < e.2.length ∧ e.1.2.isSentinel = false) :
    ∃ objNm, processGroup hf s' e.1 e.2 = renameMaster s' e.1.1 objNm := by
  unfold processGroup
  rw [if_pos (by exact ⟨hq.1, hq.2⟩)]
  rcases hus : e.2 with _ | ⟨u0, rest⟩
  · rw [hus] at hq
    simp at hq
  · refine ⟨meshNm s' u0.1, ?_⟩
    apply foldUsages_id rest
    · intro u hu
      exact he u (by rw [hus]; exact List.mem_cons_of_mem _ hu)
    · rw [renameMaster_meshes]
      exact hmeshes

lemma processGroup_cases {hf : List (Int × Int) → Int} {s0 s' : Scene}
    {e : (Nat × UVHash) × List (Nat × Nat)} (he : EntryProp hf s0 e)
    (hmeshes : s'.meshes = s0.meshes) :
    processGroup hf s' e.1 e.2 = s' ∨
    ((∃ objNm, processGroup hf s' e.1 e.2 = renameMaster s' e.1.1 objNm) ∧
      1 < e.2.length ∧ e.1.2.isSentinel = false) := by
  by_cases hq : 1 < e.2.length ∧ e.1.2.isSentinel = false
  · exact Or.inr ⟨processGroup_rename he hmeshes hq, hq⟩
  · left
    unfold processGroup
    rw [if_neg (by simpa using hq)]

lemma processGroup_meshes {hf : List (Int × Int) → Int} {s0 s' : Scene}
    {e : (Nat × UVHash) × List (Nat × Nat)} (he : EntryProp hf s0 e)
    (hmeshes : s'.meshes = s0.meshes) :
    (processGroup hf s' e.1 e.2).meshes = s0.meshes := by
  rcases processGroup_cases he hmeshes with h | ⟨⟨nm1, h⟩, _⟩
  · rw [h, hmeshes]
  · rw [h, renameMaster_meshes, hmeshes]

lemma foldGroups_meshes {hf : List (Int × Int) → Int} {s0 : Scene} :
    ∀ (entries : UsageList) (s' : Scene),
    (∀ e ∈ entries, EntryProp hf s0 e) → s'.meshes = s0.meshes →
    (entries.foldl (fun acc e => processGroup hf acc e.1 e.2) s').meshes =
      s0.meshes
  | [], _, _, hmeshes => hmeshes
  | e :: rest, s', hent, hmeshes => by
    rw [List.foldl_cons]
    exact foldGroups_meshes rest _
      (fun e' he' => hent e' (List.mem_cons_of_mem _ he'))
      (processGroup_meshes (hent e (List.mem_cons_self _ _)) hmeshes)

/-- `duplicate_shared_materials` never modifies any mesh: in particular
no material slot is ever reassigned, because the clone branch never
fires. -/
lemma resolve_meshes (hf : List (Int × Int) → Int) (s : Scene) :
    (duplicate_shared_materials hf s).meshes = s.meshes :=
  foldGroups_meshes (buildUsages hf s) s (buildUsages_sound hf s) rfl

lemma resolve_slotMat (hf : List (Int × Int) → Int) (s : Scene) (i j : Nat) :
    slotMat (duplicate_shared_materials hf s) i j = slotMat s i j := by
  unfold slotMat
  rw [resolve_meshes]

lemma foldGroups_name_unchanged {hf : List (Int × Int) → Int} {s0 : Scene}
    {mid : Nat} : ∀ (entries : UsageList) (s' : Scene),
    (∀ e ∈ entries, EntryProp hf s0 e) → s'.meshes = s0.meshes →
    (∀ e ∈ entries, e.1.1 = mid →
      ¬(1 < e.2.length ∧ e.1.2.isSentinel = false)) →
    matNameQ (entries.foldl
      (fun acc e => processGroup hf acc e.1 e.2) s') mid = matNameQ s' mid
  | [], _, _, _, _ => rfl
  | e :: rest, s', hent, hmeshes, hno => by
    rw [List.foldl_cons]
    have hrec := foldGroups_name_unchanged rest
      (processGroup hf s' e.1 e.2)
      (fun e' he' => hent e' (List.mem_cons_of_mem _ he'))
      (processGroup_meshes (hent e (List.mem_cons_self _ _)) hmeshes)
      (fun e' he' => hno e' (List.mem_cons_of_mem _ he'))
    rw [hrec]
    rcases processGroup_cases (hent e (List.mem_cons_self _ _)) hmeshes with
      h | ⟨⟨nm1, h⟩, hq⟩
    · rw [h]
    · rw [h, matNameQ_rename,
        if_neg (fun hc => hno e (List.mem_cons_self _ _) hc.symm hq)]

lemma foldGroups_name_append {hf : List (Int × Int) → Int} {s0 : Scene}
    {mid : Nat} : ∀ (entries : UsageList) (s' : Scene) (nmcur : String),
    (∀ e ∈ entries, EntryProp hf s0 e) → s'.meshes = s0.meshes →
    matNameQ s' mid = some nmcur →
    ∃ t, matNameQ (entries.foldl
      (fun acc e => processGroup hf acc e.1 e.2) s') mid = some (nmcur ++ t)
  | [], _, nmcur, _, _, hnm => ⟨"", by simpa using hnm⟩
  | e :: rest, s', nmcur, hent, hmeshes, hnm => by
    rw [List.foldl_cons]
    have hmeshes' :=
      processGroup_meshes (hent e (List.mem_cons_self _ _)) hmeshes
    have hent' : ∀ e' ∈ rest, EntryProp hf s0 e' :=
      fun e' he' => hent e' (List.mem_cons_of_mem _ he')
    rcases processGroup_cases (hent e (List.mem_cons_self _ _)) hmeshes with
      h | ⟨⟨nm1, h⟩, hq⟩
    · rw [h] at hmeshes' ⊢
      exact foldGroups_name_append rest s' nmcur hent' hmeshes' hnm
    · rw [h] at hmeshes' ⊢
      by_cases hc : mid = e.1.1
      · have hnm1 : matNameQ (renameMaster s' e.1.1 nm1) mid =
            some (nmcur ++ ("_MASTER_" ++ nm1)) := by
          rw [matNameQ_rename, if_pos hc, hnm]
          simp [String.append_assoc]
        obtain ⟨t, ht⟩ := foldGroups_name_append rest _ _ hent' hmeshes' hnm1
        exact ⟨"_MASTER_" ++ nm1 ++ t, by
          rw [ht]; simp [String.append_assoc]⟩
      · have hnm1 : matNameQ (renameMaster s' e.1.1 nm1) mid = some nmcur := by
          rw [matNameQ_rename, if_neg hc]
          exact hnm
        exact foldGroups_name_append rest _ _ hent' hmeshes' hnm1

lemma foldGroups_master {hf : List (Int × Int) → Int} {s0 : Scene} {mid : Nat}
    {e : (Nat × UVHash) × List (Nat × Nat)} {L1 L2 : UsageList}
    (hent : ∀ e' ∈ L1 ++ e :: L2, EntryProp hf s0 e')
    (he1 : e.1.1 = mid) (hq : 1 < e.2.length ∧ e.1.2.isSentinel = false)
    {nm0 : String} (hnm : matNameQ s0 mid = some nm0) :
    ∃ a b, matNameQ ((L1 ++ e :: L2).foldl
      (fun acc e => processGroup hf acc e.1 e.2) s0) mid =
      some (nm0 ++ a ++ "_MASTER_" ++ b) := by
  rw [List.foldl_append, List.foldl_cons]
  have hentL1 : ∀ e' ∈ L1, EntryProp hf s0 e' :=
    fun e' he' => hent e' (List.mem_append_left _ he')
  have hmeshes1 : (L1.foldl
      (fun acc e => processGroup hf acc e.1 e.2) s0).meshes = s0.meshes :=
    foldGroups_meshes L1 s0 hentL1 rfl
  obtain ⟨t0, ht0⟩ := foldGroups_name_append L1 s0 nm0 hentL1 rfl hnm
  have hee : EntryProp hf s0 e :=
    hent e (List.mem_append_right _ (List.mem_cons_self _ _))
  obtain ⟨nm1, hren⟩ := processGroup_rename hee hmeshes1 hq
  rw [hren]
  have hmeshes2 : (renameMaster (L1.foldl
      (fun acc e => processGroup hf acc e.1 e.2) s0) e.1.1 nm1).meshes =
      s0.meshes := by
    rw [renameMaster_meshes]
    exact hmeshes1
  have hnm2 : matNameQ (renameMaster (L1.foldl
      (fun acc e => processGroup hf acc e.1 e.2) s0) e.1.1 nm1) mid =
      some (nm0 ++ t0 ++ "_MASTER_" ++ nm1) := by
    rw [matNameQ_rename, if_pos he1.symm, ht0]
    simp
  obtain ⟨t2, ht2⟩ := foldGroups_name_append L2 _ _
    (fun e' he' => hent e'
      (List.mem_append_right _ (List.mem_cons_of_mem _ he')))
    hmeshes2 hnm2
  exact ⟨t0, nm1 ++ t2, by rw [ht2]; simp [String.append_assoc]⟩

/-! ### Lemmas: completeness and uniqueness of pass-1 grouping -/

lemma insertUsage_mono {acc : UsageList} {k' : UsageKey} {u' : Nat × Nat}
    (k : UsageKey) (u : Nat × Nat) (h : hasUsage acc k' u') :
    hasUsage (insertUsage acc k u) k' u' := by
  obtain ⟨us', h1, h2⟩ := h
  unfold insertUsage
  split
  · by_cases hk : k' = k
    · refine ⟨us' ++ [u], ?_, List.mem_append_left _ h2⟩
      have := List.mem_map_of_mem
        (fun e => if e.1 = k then (e.1, e.2 ++ [u]) else e) h1
      simpa [hk] using this
    · refine ⟨us', ?_, h2⟩
      have := List.mem_map_of_mem
        (fun e => if e.1 = k then (e.1, e.2 ++ [u]) else e) h1
      simpa [hk] using this
  · exact ⟨us', List.mem_append_left _ h1, h2⟩

lemma insertUsage_self (acc : UsageList) (k : UsageKey) (u : Nat × Nat) :
    hasUsage (insertUsage acc k u) k u := by
  unfold insertUsage
  split
  · next hany =>
    obtain ⟨e, he, hek⟩ := List.any_eq_true.mp hany
    have hek' : e.1 = k := by simpa using hek
    refine ⟨e.2 ++ [u], ?_, List.mem_append_right _ (by simp)⟩
    have := List.mem_map_of_mem
      (fun e => if e.1 = k then (e.1, e.2 ++ [u]) else e) he
    simpa [hek'] using this
  · exact ⟨[u], List.mem_append_right _ (by simp), by simp⟩

lemma buildSlots_mono {hf : List (Int × Int) → Int} {mesh : Mesh} {i : Nat}
    {k : UsageKey} {u : Nat × Nat} :
    ∀ (slots : List MSlot) (j : Nat) (acc : UsageList),
    hasUsage acc k u → hasUsage (buildSlots hf mesh i slots j acc) k u
  | [], _, _, h => h
  | sl :: rest, j, acc, h => by
    rw [buildSlots]
    apply buildSlots_mono rest (j + 1)
    rcases hm : sl.material with _ | mid
    · exact h
    · exact insertUsage_mono _ _ h

lemma buildMeshes_mono {hf : List (Int × Int) → Int} {k : UsageKey}
    {u : Nat × Nat} : ∀ (meshes : List Mesh) (i : Nat) (acc : UsageList),
    hasUsage acc k u → hasUsage (buildMeshes hf meshes i acc) k u
  | [], _, _, h => h
  | m :: rest, i, acc, h => by
    rw [buildMeshes]
    exact buildMeshes_mono rest (i + 1) _ (buildSlots_mono _ 0 _ h)

lemma buildSlots_complete {hf : List (Int × Int) → Int} {mesh : Mesh} {i : Nat}
    {mid : Nat} : ∀ (slots : List MSlot) (j : Nat) (acc : UsageList)
    (d : Nat) (sl : MSlot), slots[d]? = some sl → sl.material = some mid →
    hasUsage (buildSlots hf mesh i slots j acc)
      (mid, get_uv_hash hf mesh (some mid)) (i, j + d)
  | [], _, _, d, _, hd, _ => by simp at hd
  | sl0 :: rest, j, acc, 0, sl, hd, hm => by
    have hsl : sl0 = sl := by simpa using hd
    rw [buildSlots, hsl, hm]
    have : j + 0 = j := by omega
    rw [this]
    exact buildSlots_mono rest (j + 1) _ (insertUsage_self _ _ _)
  | sl0 :: rest, j, acc, d + 1, sl, hd, hm => by
    rw [buildSlots]
    have := @buildSlots_complete hf mesh i mid rest (j + 1)
      (match sl0.material with
        | some mid' => insertUsage acc
            (mid', get_uv_hash hf mesh (some mid')) (i, j)
        | none => acc) d sl (by simpa using hd) hm
    rwa [show j + 1 + d = j + (d + 1) by omega] at this

lemma buildMeshes_complete {hf : List (Int × Int) → Int} {mid : Nat} :
    ∀ (meshes : List Mesh) (i : Nat) (acc : UsageList) (d : Nat) (m : Mesh)
    (jj : Nat) (sl : MSlot), meshes[d]? = some m →
    m.material_slots[jj]? = some sl → sl.material = some mid →
    hasUsage (buildMeshes hf meshes i acc)
      (mid, get_uv_hash hf m (some mid)) (i + d, jj)
  | [], _, _, d, _, _, _, hd, _, _ => by simp at hd
  | m0 :: rest, i, acc, 0, m, jj, sl, hd, hs, hm => by
    have hm0 : m0 = m := by simpa using hd
    rw [buildMeshes, hm0]
    have : i + 0 = i := by omega
    rw [this]
    apply buildMeshes_mono rest (i + 1)
    have := @buildSlots_complete hf m i mid
      m.material_slots 0 acc jj sl hs hm
    rwa [show (0 : Nat) + jj = jj by omega] at this
  | m0 :: rest, i, acc, d + 1, m, jj, sl, hd, hs, hm => by
    rw [buildMeshes]
    have := @buildMeshes_complete hf mid rest (i + 1)
      (buildSlots hf m0 i m0.material_slots 0 acc) d m jj sl
      (by simpa using hd) hs hm
    rwa [show i + 1 + d = i + (d + 1) by omega] at this

lemma buildUsages_complete {hf : List (Int × Int) → Int} {s : Scene} {i j mid : Nat}
    {m : Mesh} {sl : MSlot} (h1 : s.meshes[i]? = some m)
    (h2 : m.material_slots[j]? = some sl) (h3 : sl.material = some mid) :
    hasUsage (buildUsages hf s) (mid, get_uv_hash hf m (some mid)) (i, j) := by
  unfold buildUsages
  have := @buildMeshes_complete hf mid s.meshes 0 [] i m j sl h1 h2 h3
  rwa [show (0 : Nat) + i = i by omega] at this

lemma insertUsage_keysND {acc : UsageList} (k : UsageKey) (u : Nat × Nat)
    (h : keysND acc) : keysND (insertUsage acc k u) := by
  unfold insertUsage
  split
  · next hany =>
    unfold keysND at h ⊢
    have : (acc.map (fun e => if e.1 = k then (e.1, e.2 ++ [u]) else e)).map
        (·.1) = acc.map (·.1) := by
      rw [List.map_map]
      apply List.map_congr_left
      intro e _
      by_cases he : e.1 = k <;> simp [he]
    rw [this]
    exact h
  · next hany =>
    unfold keysND at h ⊢
    rw [List.map_append]
    apply List.Nodup.append h (by simp)
    intro x hx hx'
    have hxk : x = k := by simpa using hx'
    obtain ⟨e, he, hek⟩ := List.mem_map.mp hx
    rw [List.any_eq_true] at hany
    exact hany ⟨e, he, by simp [hek, hxk]⟩

lemma buildSlots_keysND {hf : List (Int × Int) → Int} {mesh : Mesh} {i : Nat} :
    ∀ (slots : List MSlot) (j : Nat) (acc : UsageList),
    keysND acc → keysND (buildSlots hf mesh i slots j acc)
  | [], _, _, h => h
  | sl :: rest, j, acc, h => by
    rw [buildSlots]
    apply buildSlots_keysND rest (j + 1)
    rcases sl.material with _ | mid
    · exact h
    · exact insertUsage_keysND _ _ h

lemma buildMeshes_keysND {hf : List (Int × Int) → Int} :
    ∀ (meshes : List Mesh) (i : Nat) (acc : UsageList),
    keysND acc → keysND (buildMeshes hf meshes i acc)
  | [], _, _, h => h
  | m :: rest, i, acc, h => by
    rw [buildMeshes]
    exact buildMeshes_keysND rest (i + 1) _ (buildSlots_keysND _ 0 _ h)

lemma buildUsages_keysND (hf : List (Int × Int) → Int) (s : Scene) :
    keysND (buildUsages hf s) :=
  buildMeshes_keysND s.meshes 0 [] (by constructor)

lemma usages_unique {acc : UsageList} {k : UsageKey}
    {us1 us2 : List (Nat × Nat)} (hnd : keysND acc) (h1 : (k, us1) ∈ acc)
    (h2 : (k, us2) ∈ acc) : us1 = us2 := by
  induction acc with
  | nil => exact absurd h1 (List.not_mem_nil _)
  | cons e rest ih =>
    unfold keysND at hnd
    rw [List.map_cons, List.nodup_cons] at hnd
    rcases List.mem_cons.mp h1 with rfl | h1'
    · rcases List.mem_cons.mp h2 with he | h2'
      · exact (congrArg Prod.snd he.symm)
      · exact absurd (List.mem_map_of_mem (·.1) h2') (by simpa using hnd.1)
    · rcases List.mem_cons.mp h2 with rfl | h2'
      · exact absurd (List.mem_map_of_mem (·.1) h1') (by simpa using hnd.1)
      · exact ih hnd.2 h1' h2'

lemma one_lt_length_of_mem_ne {α : Type} {a b : α} {l : List α}
    (ha : a ∈ l) (hb : b ∈ l) (hne : a ≠ b) : 1 < l.length := by
  rcases l with _ | ⟨x, _ | ⟨y, t⟩⟩
  · exact absurd ha (List.not_mem_nil _)
  · have ha' : a = x := by simpa using ha
    have hb' : b = x := by simpa using hb
    exact absurd (ha'.trans hb'.symm) hne
  · simp only [List.length_cons]
    omega

/-- A material all of whose usage groups are sentinel-keyed or
singletons is left untouched by the resolver (no rename). -/
lemma resolve_name_unchanged (hf : List (Int × Int) → Int) (s : Scene)
    (mid : Nat) (hno : ∀ e ∈ buildUsages hf s, e.1.1 = mid →
      ¬(1 < e.2.length ∧ e.1.2.isSentinel = false)) :
    matNameQ (duplicate_shared_materials hf s) mid = matNameQ s mid :=
  foldGroups_name_unchanged (buildUsages hf s) s (buildUsages_sound hf s)
    rfl hno

/-- Core of C4, part 1: two distinct usages of one material with equal
non-sentinel fingerprints still share that material object after the
resolver, and the material has been renamed as a master. -/
lemma resolve_pair_master {hf : List (Int × Int) → Int} {s : Scene}
    {i j k l mid : Nat} {v : Int} {mi mk : Mesh} {sli slk : MSlot}
    {nm0 : String}
    (h1 : s.meshes[i]? = some mi) (h2 : mi.material_slots[j]? = some sli)
    (h3 : sli.material = some mid)
    (h4 : s.meshes[k]? = some mk) (h5 : mk.material_slots[l]? = some slk)
    (h6 : slk.material = some mid)
    (hne : (i, j) ≠ (k, l))
    (hh1 : get_uv_hash hf mi (some mid) = .h v)
    (hh2 : get_uv_hash hf mk (some mid) = .h v)
    (hnm : matNameQ s mid = some nm0) :
    slotMat (duplicate_shared_materials hf s) i j = some mid ∧
    slotMat (duplicate_shared_materials hf s) k l = some mid ∧
    ∃ a b, matNameQ (duplicate_shared_materials hf s) mid =
      some (nm0 ++ a ++ "_MASTER_" ++ b) := by
  have hslot1 : slotMat s i j = some mid := by
    unfold slotMat
    rw [getD_of_getElem? defMesh h1, getD_of_getElem? ⟨none⟩ h2, h3]
  have hslot2 : slotMat s k l = some mid := by
    unfold slotMat
    rw [getD_of_getElem? defMesh h4, getD_of_getElem? ⟨none⟩ h5, h6]
  refine ⟨by rw [resolve_slotMat]; exact hslot1,
    by rw [resolve_slotMat]; exact hslot2, ?_⟩
  obtain ⟨us1, hm1, hu1⟩ := buildUsages_complete h1 h2 h3
  obtain ⟨us2, hm2, hu2⟩ := buildUsages_complete h4 h5 h6
  rw [hh1] at hm1
  rw [hh2] at hm2
  have husme : us1 = us2 := usages_unique (buildUsages_keysND hf s) hm1 hm2
  rw [← husme] at hu2
  have hlen : 1 < us1.length := one_lt_length_of_mem_ne hu1 hu2 hne
  obtain ⟨L1, L2, hsplit⟩ := List.append_of_mem hm1
  unfold duplicate_shared_materials
  rw [hsplit]
  exact @foldGroups_master hf s mid ((mid, UVHash.h v), us1) L1 L2
    (hsplit ▸ buildUsages_sound hf s) rfl ⟨hlen, rfl⟩ nm0 hnm

/-! ### Lemmas: bake events and per-channel control flow -/

lemma bakeOne_ok (oracle : Nat → Bool) (matId : Nat) (mname : String)
    (g : NodeTree) (n : Nat) (bt suf : String) :
    (bakeOne oracle matId mname g n bt suf).ok = oracle n := rfl

lemma bakeOne_ncalls (oracle : Nat → Bool) (matId : Nat) (mname : String)
    (g : NodeTree) (n : Nat) (bt suf : String) :
    (bakeOne oracle matId mname g n bt suf).ncalls = n + 1 := rfl

lemma countBake_bakeOne (oracle : Nat → Bool) (matId : Nat) (mname : String)
    (g : NodeTree) (n : Nat) (bt suf : String) :
    countBake (bakeOne oracle matId mname g n bt suf).evs = 1 := by
  unfold bakeOne countBake
  by_cases hs : suf = "metallic"
  · rcases hsnap : (setup_metallic_nodes g).2 with _ | ⟨l, ls⟩ <;>
      cases ho : oracle n <;>
      simp [hs, hsnap, ho, isBakeEv, List.filter]
  · cases ho : oracle n <;> simp [hs, ho, isBakeEv, List.filter]

lemma countBakeT_bakeOne (oracle : Nat → Bool) (matId : Nat) (mname : String)
    (g : NodeTree) (n : Nat) (bt suf bt' : String) :
    countBakeT (bakeOne oracle matId mname g n bt suf).evs bt' =
      if (if suf = "metallic" then "EMIT" else bt) = bt' then 1 else 0 := by
  unfold bakeOne countBakeT
  by_cases hs : suf = "metallic"
  · rcases hsnap : (setup_metallic_nodes g).2 with _ | ⟨l, ls⟩ <;>
      cases ho : oracle n <;>
      by_cases hbt : ("EMIT" : String) = bt' <;>
      simp [hs, hsnap, ho, hbt, isBakeT, List.filter]
  · cases ho : oracle n <;> by_cases hbt : bt = bt' <;>
      simp [hs, ho, hbt, isBakeT, List.filter]

lemma select_bakeOne (oracle : Nat → Bool) (matId : Nat) (mname : String)
    (g : NodeTree) (n : Nat) (bt suf : String) :
    (bakeOne oracle matId mname g n bt suf).evs.filter isSelectEv = [] := by
  unfold bakeOne
  by_cases hs : suf = "metallic"
  · rcases hsnap : (setup_metallic_nodes g).2 with _ | ⟨l, ls⟩ <;>
      cases ho : oracle n <;>
      simp [hs, hsnap, ho, isSelectEv, List.filter]
  · cases ho : oracle n <;> simp [hs, ho, isSelectEv, List.filter]

/-! ### Lemmas: the channel loop -/

lemma bakeAllAux_ok_iff (oracle : Nat → Bool) (matId : Nat) (mname : String) :
    ∀ (chs : List (String × String)) (g : NodeTree) (n : Nat),
    ((bakeAllAux oracle matId mname chs g n).ok = true ↔
      ∀ d < chs.length, oracle (n + d) = true)
  | [], g, n => by simp [bakeAllAux]
  | (bt, suf) :: rest, g, n => by
    rw [bakeAllAux]
    cases ho : oracle n
    · rw [show (bakeOne oracle matId mname g n bt suf).ok = false by
        rw [bakeOne_ok]; exact ho]
      rw [if_neg Bool.false_ne_true]
      constructor
      · intro hc
        exact absurd hc Bool.false_ne_true
      · intro hall
        have h0 := hall 0 (by simp)
        rw [Nat.add_zero, ho] at h0
        exact absurd h0 Bool.false_ne_true
    · rw [show (bakeOne oracle matId mname g n bt suf).ok = true by
        rw [bakeOne_ok]; exact ho]
      rw [if_pos rfl, bakeAllAux_ok_iff oracle matId mname rest _ _]
      rw [bakeOne_ncalls]
      constructor
      · intro hrest d hd
        rcases d with _ | d'
        · rw [Nat.add_zero]; exact ho
        · have := hrest d' (by simpa using hd)
          rwa [show n + 1 + d' = n + (d' + 1) by omega] at this
      · intro hall d hd
        have := hall (d + 1) (by simpa using hd)
        rwa [show n + (d + 1) = n + 1 + d by omega] at this

lemma countBake_append (a b : List Ev) :
    countBake (a ++ b) = countBake a + countBake b := by
  unfold countBake
  rw [List.filter_append, List.length_append]

lemma bakeAllAux_countBake (oracle : Nat → Bool) (matId : Nat)
    (mname : String) : ∀ (chs : List (String × String)) (g : NodeTree)
    (n : Nat), countBake (bakeAllAux oracle matId mname chs g n).evs =
      firstFailCount oracle n chs.length
  | [], g, n => by simp [bakeAllAux, countBake, firstFailCount]
  | (bt, suf) :: rest, g, n => by
    rw [bakeAllAux]
    cases ho : oracle n
    · rw [show (bakeOne oracle matId mname g n bt suf).ok = false by
        rw [bakeOne_ok]; exact ho]
      rw [if_neg Bool.false_ne_true, countBake_bakeOne, List.length_cons]
      simp [firstFailCount, ho]
    · rw [show (bakeOne oracle matId mname g n bt suf).ok = true by
        rw [bakeOne_ok]; exact ho]
      rw [if_pos rfl]
      rw [countBake_append, countBake_bakeOne,
        bakeAllAux_countBake oracle matId mname rest _ _, bakeOne_ncalls,
        List.length_cons]
      simp [firstFailCount, ho]

/-! ### Lemmas: persistence of the `Bake_Target` node -/

lemma containsBT_setup_bake_node (g : NodeTree) :
    containsBT (setup_bake_node g) := by
  unfold containsBT setup_bake_node
  rcases hf : g.nodes.find? (fun n => n.nm = "Bake_Target") with _ | nd <;>
    dsimp only [nodesNew] <;>
    exact ⟨_, List.mem_map_of_mem _
      (List.mem_append_right _ (List.mem_cons_self _ _)), by simp⟩

lemma setup_metallic_nodes_mem {g : NodeTree} {x : SNode}
    (hx : x ∈ g.nodes) : x ∈ (setup_metallic_nodes g).1.nodes := by
  unfold setup_metallic_nodes
  dsimp only [nodesNew, linksNew]
  split <;> split <;> split <;> simp [hx]

lemma containsBT_setup_metallic (g : NodeTree) (h : containsBT g) :
    containsBT (setup_metallic_nodes g).1 := by
  obtain ⟨x, hx, h1, h2⟩ := h
  exact ⟨x, setup_metallic_nodes_mem hx, h1, h2⟩

lemma containsBT_restore (g : NodeTree) (snap : List SLink)
    (h : containsBT g) : containsBT (restore_material_links g snap) := by
  obtain ⟨x, hx, h1, h2⟩ := h
  unfold restore_material_links
  refine ⟨x, ?_, h1, h2⟩
  rw [readdLinks_nodes]
  unfold removeTemp
  dsimp only
  refine List.mem_filter.mpr ⟨hx, ?_⟩
  simp [h2]

lemma containsBT_bakeOne (oracle : Nat → Bool) (matId : Nat)
    (mname : String) (g : NodeTree) (n : Nat) (bt suf : String)
    (h : containsBT g) :
    containsBT (bakeOne oracle matId mname g n bt suf).graph := by
  unfold bakeOne
  by_cases hs : suf = "metallic"
  · rcases hsnap : (setup_metallic_nodes g).2 with _ | ⟨l, ls⟩ <;>
      simp only [hs, if_pos rfl, hsnap]
    · exact containsBT_setup_metallic g h
    · exact containsBT_restore _ _ (containsBT_setup_metallic g h)
  · simp only [if_neg hs]
    exact h

lemma containsBT_bakeAllAux (oracle : Nat → Bool) (matId : Nat)
    (mname : String) : ∀ (chs : List (String × String)) (g : NodeTree)
    (n : Nat), containsBT g →
    containsBT (bakeAllAux oracle matId mname chs g n).graph
  | [], _, _, h => h
  | (bt, suf) :: rest, g, n, h => by
    rw [bakeAllAux]
    have h1 := containsBT_bakeOne oracle matId mname g n bt suf h
    cases ho : (bakeOne oracle matId mname g n bt suf).ok
    · rw [if_neg Bool.false_ne_true]
      exact h1
    · rw [if_pos rfl]
      exact containsBT_bakeAllAux oracle matId mname rest _ _ h1

/-! ### Lemmas: the material registry during baking -/

lemma matGraph_setMatGraph_self {s : Scene} {matId : Nat} {g : NodeTree}
    (h : (s.materials.find? (fun mo => mo.mid = matId)).isSome = true) :
    matGraph (setMatGraph s matId g) matId = g := by
  unfold matGraph setMatGraph
  dsimp only
  rw [find?_map_update s.materials matId matId
    (fun mo => { mo with graph := g }) (fun _ => rfl)]
  obtain ⟨mo, hmo⟩ := Option.isSome_iff_exists.mp h
  rw [hmo]
  have : mo.mid = matId := by simpa using List.find?_some hmo
  simp [this]

lemma matGraph_setMatGraph_other {s : Scene} {matId tgt : Nat}
    {g : NodeTree} (h : matId ≠ tgt) :
    matGraph (setMatGraph s tgt g) matId = matGraph s matId := by
  unfold matGraph setMatGraph
  dsimp only
  rw [find?_map_update s.materials matId tgt
    (fun mo => { mo with graph := g }) (fun _ => rfl)]
  rcases hmo : s.materials.find? (fun mo => mo.mid = matId) with _ | mo
  · rw [hmo]; rfl
  · rw [hmo]
    have : mo.mid = matId := by simpa using List.find?_some hmo
    simp [this, h]

lemma setMatGraph_presence {s : Scene} {tgt : Nat} {g : NodeTree}
    (mid : Nat) :
    ((setMatGraph s tgt g).materials.find?
      (fun mo => mo.mid = mid)).isSome =
    (s.materials.find? (fun mo => mo.mid = mid)).isSome := by
  unfold setMatGraph
  dsimp only
  rw [find?_map_update s.materials mid tgt
    (fun mo => { mo with graph := g }) (fun _ => rfl)]
  rcases hmo : s.materials.find? (fun mo => mo.mid = mid) with _ | mo <;>
    rw [hmo] <;> rfl

lemma matNameD_setMatGraph {s : Scene} {tgt : Nat} {g : NodeTree}
    (mid : Nat) : matNameD (setMatGraph s tgt g) mid = matNameD s mid := by
  unfold matNameD setMatGraph
  dsimp only
  rw [find?_map_update s.materials mid tgt
    (fun mo => { mo with graph := g }) (fun _ => rfl)]
  rcases hmo : s.materials.find? (fun mo => mo.mid = mid) with _ | mo
  · rw [hmo]; rfl
  · rw [hmo]
    by_cases h : mo.mid = tgt <;> simp [h]

lemma setMatGraph_meshes (s : Scene) (tgt : Nat) (g : NodeTree) :
    (setMatGraph s tgt g).meshes = s.meshes := rfl

/-! ### Lemmas: the UV-group loop and the run loop -/

lemma insertGroup_members_ne {gs : List (UVHash × List Nat)} {h : UVHash}
    {i : Nat} (hgs : ∀ e ∈ gs, e.2 ≠ []) :
    ∀ e ∈ insertGroup gs h i, e.2 ≠ [] := by
  unfold insertGroup
  split
  · intro e he
    obtain ⟨e0, he0, heq⟩ := List.mem_map.mp he
    by_cases hk : e0.1 = h
    · rw [if_pos hk] at heq
      rw [← heq]
      simp
    · rw [if_neg hk] at heq
      rw [← heq]
      exact hgs e0 he0
  · intro e he
    rcases List.mem_append.mp he with h' | h'
    · exact hgs e h'
    · have : e = (h, [i]) := by simpa using h'
      rw [this]
      simp

lemma uvGroupsAux_members_ne {hf : List (Int × Int) → Int} {matId : Nat} :
    ∀ (meshes : List Mesh) (i : Nat) (gs : List (UVHash × List Nat)),
    (∀ e ∈ gs, e.2 ≠ []) → ∀ e ∈ uvGroupsAux hf matId meshes i gs, e.2 ≠ []
  | [], _, _, hgs => hgs
  | m :: rest, i, gs, hgs => by
    rw [uvGroupsAux]
    apply uvGroupsAux_members_ne rest (i + 1)
    split
    · dsimp only
      split
      · exact insertGroup_members_ne hgs
      · exact hgs
    · exact hgs

lemma uvGroups_members_ne (hf : List (Int × Int) → Int) (meshes : List Mesh)
    (matId : Nat) : ∀ e ∈ uvGroups hf meshes matId, e.2 ≠ [] :=
  uvGroupsAux_members_ne meshes 0 []
    (fun e he => absurd he (List.not_mem_nil _))

lemma bakeGroups_meshes {hf : List (Int × Int) → Int} {oracle : Nat → Bool}
    {matId : Nat} : ∀ (groups : List (UVHash × List Nat)) (s : Scene)
    (n : Nat), (bakeGroups hf oracle matId groups s n).scene.meshes =
      s.meshes
  | [], _, _ => rfl
  | (h, []) :: rest, s, n => by
    rw [bakeGroups]
    exact bakeGroups_meshes rest s n
  | (h, o :: os) :: rest, s, n => by
    rw [bakeGroups]
    dsimp only
    split
    · rw [bakeGroups_meshes rest _ _]
      rfl
    · rfl

lemma bakeGroups_presence {hf : List (Int × Int) → Int} {oracle : Nat → Bool}
    {matId : Nat} (mid : Nat) : ∀ (groups : List (UVHash × List Nat))
    (s : Scene) (n : Nat),
    ((bakeGroups hf oracle matId groups s n).scene.materials.find?
      (fun mo => mo.mid = mid)).isSome =
    (s.materials.find? (fun mo => mo.mid = mid)).isSome
  | [], _, _ => rfl
  | (h, []) :: rest, s, n => by
    rw [bakeGroups]
    exact bakeGroups_presence mid rest s n
  | (h, o :: os) :: rest, s, n => by
    rw [bakeGroups]
    dsimp only
    split
    · rw [bakeGroups_presence mid rest _ _, setMatGraph_presence,
        setMatGraph_presence]
    · rw [setMatGraph_presence, setMatGraph_presence]

lemma bakeGroups_matGraph_other {hf : List (Int × Int) → Int}
    {oracle : Nat → Bool} {matId mid : Nat} (hne : mid ≠ matId) :
    ∀ (groups : List (UVHash × List Nat)) (s : Scene) (n : Nat),
    matGraph (bakeGroups hf oracle matId groups s n).scene mid =
      matGraph s mid
  | [], _, _ => rfl
  | (h, []) :: rest, s, n => by
    rw [bakeGroups]
    exact bakeGroups_matGraph_other hne rest s n
  | (h, o :: os) :: rest, s, n => by
    rw [bakeGroups]
    dsimp only
    split
    · rw [bakeGroups_matGraph_other hne rest _ _,
        matGraph_setMatGraph_other hne, matGraph_setMatGraph_other hne]
    · rw [matGraph_setMatGraph_other hne, matGraph_setMatGraph_other hne]

lemma bakeGroups_containsBT_pres {hf : List (Int × Int) → Int}
    {oracle : Nat → Bool} {matId : Nat} :
    ∀ (groups : List (UVHash × List Nat)) (s : Scene) (n : Nat),
    (s.materials.find? (fun mo => mo.mid = matId)).isSome = true →
    containsBT (matGraph s matId) →
    containsBT (matGraph (bakeGroups hf oracle matId groups s n).scene matId)
  | [], _, _, _, h => h
  | (h, []) :: rest, s, n, hpres, hbt => by
    rw [bakeGroups]
    exact bakeGroups_containsBT_pres rest s n hpres hbt
  | (h, o :: os) :: rest, s, n, hpres, hbt => by
    rw [bakeGroups]
    dsimp only
    have hbt2 : containsBT (matGraph (setMatGraph
        (setMatGraph s matId (setup_bake_node (matGraph s matId))) matId
        (bake_all_maps oracle matId
          (matNameD (setMatGraph s matId
            (setup_bake_node (matGraph s matId))) matId)
          (setup_bake_node (matGraph s matId)) n).graph) matId) := by
      rw [matGraph_setMatGraph_self
        (by rw [setMatGraph_presence]; exact hpres)]
      exact containsBT_bakeAllAux oracle matId _ BAKE_TYPES _ n
        (containsBT_setup_bake_node _)
    split
    · apply bakeGroups_containsBT_pres rest _ _
      · rw [setMatGraph_presence, setMatGraph_presence]
        exact hpres
      · exact hbt2
    · exact hbt2

lemma bakeGroups_establishBT {hf : List (Int × Int) → Int}
    {oracle : Nat → Bool} {matId : Nat}
    (groups : List (UVHash × List Nat)) (s : Scene) (n : Nat)
    (hpres : (s.materials.find? (fun mo => mo.mid = matId)).isSome = true)
    (hne : ∀ e ∈ groups, e.2 ≠ []) (hgroups : groups ≠ []) :
    containsBT
      (matGraph (bakeGroups hf oracle matId groups s n).scene matId) := by
  rcases groups with _ | ⟨⟨h, objs⟩, rest⟩
  · exact absurd rfl hgroups
  · rcases hobjs : objs with _ | ⟨o, os⟩
    · exact absurd (by rw [hobjs]) (hne (h, objs) (List.mem_cons_self _ _))
    · subst hobjs
      rw [bakeGroups]
      dsimp only
      have hbt2 : containsBT (matGraph (setMatGraph
          (setMatGraph s matId (setup_bake_node (matGraph s matId))) matId
          (bake_all_maps oracle matId
            (matNameD (setMatGraph s matId
              (setup_bake_node (matGraph s matId))) matId)
            (setup_bake_node (matGraph s matId)) n).graph) matId) := by
        rw [matGraph_setMatGraph_self (by rw [setMatGraph_presence]; exact hpres)]
        exact containsBT_bakeAllAux oracle matId _ BAKE_TYPES _ n
          (containsBT_setup_bake_node _)
      split
      · apply bakeGroups_containsBT_pres rest _ _
        · rw [setMatGraph_presence, setMatGraph_presence]
          exact hpres
        · exact hbt2
      · exact hbt2

lemma bake_material_meshes (hf : List (Int × Int) → Int) (oracle : Nat → Bool)
    (s : Scene) (matId n : Nat) :
    (bake_material hf oracle s matId n).scene.meshes = s.meshes := by
  unfold bake_material
  dsimp only
  split
  · rfl
  · exact bakeGroups_meshes _ _ _

lemma bake_material_presence (hf : List (Int × Int) → Int) (oracle : Nat → Bool)
    (s : Scene) (matId n mid : Nat) :
    ((bake_material hf oracle s matId n).scene.materials.find?
      (fun mo => mo.mid = mid)).isSome =
    (s.materials.find? (fun mo => mo.mid = mid)).isSome := by
  unfold bake_material
  dsimp only
  split
  · rfl
  · exact bakeGroups_presence mid _ _ _

lemma bake_material_matGraph_other {hf : List (Int × Int) → Int}
    {oracle : Nat → Bool} {s : Scene} {matId n mid : Nat}
    (hne : mid ≠ matId) :
    matGraph (bake_material hf oracle s matId n).scene mid =
      matGraph s mid := by
  unfold bake_material
  dsimp only
  split
  · rfl
  · exact bakeGroups_matGraph_other hne _ _ _

lemma bake_material_establishBT {hf : List (Int × Int) → Int}
    {oracle : Nat → Bool} {s : Scene} {matId n : Nat}
    (hpres : (s.materials.find? (fun mo => mo.mid = matId)).isSome = true)
    (hgroups : uvGroups hf s.meshes matId ≠ []) :
    containsBT
      (matGraph (bake_material hf oracle s matId n).scene matId) := by
  unfold bake_material
  rw [if_neg hgroups]
  exact bakeGroups_establishBT _ _ _ hpres
    (uvGroups_members_ne hf s.meshes matId) hgroups

lemma execMats_results (hf : List (Int × Int) → Int) (oracle : Nat → Bool) :
    ∀ (mats : List Nat) (s : Scene) (n : Nat),
    ((execMats hf oracle mats s n).2.1).map (·.1) = mats
  | [], _, _ => rfl
  | m :: rest, s, n => by
    rw [execMats]
    dsimp only
    rw [List.map_cons, execMats_results hf oracle rest _ _]

lemma execMats_meshes (hf : List (Int × Int) → Int) (oracle : Nat → Bool) :
    ∀ (mats : List Nat) (s : Scene) (n : Nat),
    (execMats hf oracle mats s n).1.meshes = s.meshes
  | [], _, _ => rfl
  | m :: rest, s, n => by
    rw [execMats]
    dsimp only
    rw [execMats_meshes hf oracle rest _ _, bake_material_meshes]

lemma execMats_presence (hf : List (Int × Int) → Int) (oracle : Nat → Bool)
    (mid : Nat) : ∀ (mats : List Nat) (s : Scene) (n : Nat),
    ((execMats hf oracle mats s n).1.materials.find?
      (fun mo => mo.mid = mid)).isSome =
    (s.materials.find? (fun mo => mo.mid = mid)).isSome
  | [], _, _ => rfl
  | m :: rest, s, n => by
    rw [execMats]
    dsimp only
    rw [execMats_presence hf oracle mid rest _ _, bake_material_presence]

lemma execMats_matGraph_notin {hf : List (Int × Int) → Int}
    {oracle : Nat → Bool} {mid : Nat} : ∀ (mats : List Nat) (s : Scene)
    (n : Nat), mid ∉ mats →
    matGraph (execMats hf oracle mats s n).1 mid = matGraph s mid
  | [], _, _, _ => rfl
  | m :: rest, s, n, hm => by
    rw [execMats]
    dsimp only
    rw [execMats_matGraph_notin rest _ _
      (fun hc => hm (List.mem_cons_of_mem _ hc)),
      bake_material_matGraph_other
        (fun hc => hm (by rw [hc]; exact List.mem_cons_self _ _))]

lemma execMats_append (hf : List (Int × Int) → Int) (oracle : Nat → Bool) :
    ∀ (l1 l2 : List Nat) (s : Scene) (n : Nat),
    (execMats hf oracle (l1 ++ l2) s n).1 =
      (execMats hf oracle l2 (execMats hf oracle l1 s n).1
        (execMats hf oracle l1 s n).2.2.1).1
  | [], l2, s, n => rfl
  | m :: rest, l2, s, n => by
    rw [List.cons_append, execMats, execMats]
    dsimp only
    rw [execMats_append hf oracle rest l2 _ _]

/-! ### Lemmas: the referenced-material list and cleanup -/

lemma gam_slots_mem {x : Nat} : ∀ (slots : List MSlot) (acc : List Nat),
    x ∈ slots.foldl (fun acc sl =>
      match sl.material with
      | some mid => if mid ∈ acc then acc else acc ++ [mid]
      | none => acc) acc →
    x ∈ acc ∨ ∃ sl ∈ slots, sl.material = some x
  | [], _, hx => Or.inl hx
  | sl :: rest, acc, hx => by
    rw [List.foldl_cons] at hx
    rcases gam_slots_mem rest _ hx with h' | ⟨sl', hsl', hm'⟩
    · rcases hsl : sl.material with _ | mid
      · rw [hsl] at h'
        exact Or.inl h'
      · rw [hsl] at h'
        dsimp only at h'
        by_cases hmem : mid ∈ acc
        · rw [if_pos hmem] at h'
          exact Or.inl h'
        · rw [if_neg hmem] at h'
          rcases List.mem_append.mp h' with h'' | h''
          · exact Or.inl h''
          · have : x = mid := by simpa using h''
            exact Or.inr ⟨sl, List.mem_cons_self _ _, by rw [hsl, this]⟩
    · exact Or.inr ⟨sl', List.mem_cons_of_mem _ hsl', hm'⟩

lemma gam_slots_nodup : ∀ (slots : List MSlot) (acc : List Nat),
    acc.Nodup → (slots.foldl (fun acc sl =>
      match sl.material with
      | some mid => if mid ∈ acc then acc else acc ++ [mid]
      | none => acc) acc).Nodup
  | [], _, h => h
  | sl :: rest, acc, h => by
    rw [List.foldl_cons]
    apply gam_slots_nodup rest
    rcases hsl : sl.material with _ | mid <;> dsimp only
    · exact h
    · by_cases hmem : mid ∈ acc
      · rw [if_pos hmem]
        exact h
      · rw [if_neg hmem]
        apply List.Nodup.append h (by simp)
        intro y hy hy'
        have : y = mid := by simpa using hy'
        exact hmem (this ▸ hy)

lemma gam_meshes_mem {x : Nat} : ∀ (meshes : List Mesh) (acc : List Nat),
    x ∈ meshes.foldl (fun acc m =>
      m.material_slots.foldl (fun acc sl =>
        match sl.material with
        | some mid => if mid ∈ acc then acc else acc ++ [mid]
        | none => acc) acc) acc →
    x ∈ acc ∨ ∃ me ∈ meshes, ∃ sl ∈ me.material_slots, sl.material = some x
  | [], _, hx => Or.inl hx
  | me :: rest, acc, hx => by
    rw [List.foldl_cons] at hx
    rcases gam_meshes_mem rest _ hx with h' | ⟨me', hme', rest'⟩
    · rcases gam_slots_mem me.material_slots acc h' with h'' | ⟨sl, hsl, hm⟩
      · exact Or.inl h''
      · exact Or.inr ⟨me, List.mem_cons_self _ _, sl, hsl, hm⟩
    · exact Or.inr ⟨me', List.mem_cons_of_mem _ hme', rest'⟩

lemma gam_meshes_nodup : ∀ (meshes : List Mesh) (acc : List Nat),
    acc.Nodup → (meshes.foldl (fun acc m =>
      m.material_slots.foldl (fun acc sl =>
        match sl.material with
        | some mid => if mid ∈ acc then acc else acc ++ [mid]
        | none => acc) acc) acc).Nodup
  | [], _, h => h
  | me :: rest, acc, h => by
    rw [List.foldl_cons]
    exact gam_meshes_nodup rest _ (gam_slots_nodup me.material_slots acc h)

lemma get_all_materials_ref {s : Scene} {m : Nat}
    (hm : m ∈ get_all_materials s) :
    ∃ me ∈ s.meshes, ∃ sl ∈ me.material_slots, sl.material = some m := by
  rcases gam_meshes_mem s.meshes [] hm with h | h
  · exact absurd h (List.not_mem_nil _)
  · exact h

lemma get_all_materials_nodup (s : Scene) : (get_all_materials s).Nodup :=
  gam_meshes_nodup s.meshes [] (by constructor)

lemma find?_filter_mid (ms : List MaterialObj) (q : MaterialObj → Bool)
    (m : Nat) (hq : ∀ mo, mo.mid = m → q mo = true) :
    (ms.filter q).find? (fun mo => mo.mid = m) =
      ms.find? (fun mo => mo.mid = m) := by
  induction ms with
  | nil => rfl
  | cons mo rest ih =>
    by_cases hmid : mo.mid = m
    · rw [List.filter_cons, if_pos (hq mo hmid)]
      simp only [List.find?_cons]
      rw [decide_eq_true hmid]
    · rcases hqmo : q mo with _ | _
      · rw [List.filter_cons,
          if_neg (by rw [hqmo]; exact Bool.false_ne_true), ih]
        simp only [List.find?_cons]
        rw [decide_eq_false hmid]
      · rw [List.filter_cons, if_pos (by rw [hqmo])]
        simp only [List.find?_cons]
        rw [decide_eq_false hmid]
        exact ih

lemma cleanup_matGraph {s : Scene} {m : Nat}
    (href : ∃ me ∈ s.meshes, ∃ sl ∈ me.material_slots,
      sl.material = some m) :
    matGraph (cleanup_unused_materials s) m = matGraph s m := by
  unfold cleanup_unused_materials matGraph
  dsimp only
  rw [find?_filter_mid]
  intro mo hmo
  rw [List.any_eq_true]
  obtain ⟨me, hme, sl, hsl, hm⟩ := href
  refine ⟨me, hme, ?_⟩
  rw [List.any_eq_true]
  exact ⟨sl, hsl, by rw [hm, hmo]; simp⟩

/-! ### Lemmas: per-channel counts under an all-success oracle -/

lemma countBakeT_append (bt : String) (a b : List Ev) :
    countBakeT (a ++ b) bt = countBakeT a bt + countBakeT b bt := by
  unfold countBakeT
  rw [List.filter_append, List.length_append]

lemma bakeAllAux_ok_true {oracle : Nat → Bool}
    (horacle : ∀ c, oracle c = true) (matId : Nat) (mname : String)
    (chs : List (String × String)) (g : NodeTree) (n : Nat) :
    (bakeAllAux oracle matId mname chs g n).ok = true := by
  rw [bakeAllAux_ok_iff]
  intro d _
  exact horacle _

lemma bakeAllAux_countT {oracle : Nat → Bool}
    (horacle : ∀ c, oracle c = true) (matId : Nat) (bt' : String) :
    ∀ (chs : List (String × String)) (mname : String) (g : NodeTree)
    (n : Nat), countBakeT (bakeAllAux oracle matId mname chs g n).evs bt' =
      chs.countP
        (fun ch => (if ch.2 = "metallic" then "EMIT" else ch.1) = bt')
  | [], _, _, _ => by simp [bakeAllAux, countBakeT]
  | (bt, suf) :: rest, mname, g, n => by
    rw [bakeAllAux]
    rw [show (bakeOne oracle matId mname g n bt suf).ok = true by
      rw [bakeOne_ok]; exact horacle n]
    rw [if_pos rfl]
    dsimp only
    rw [countBakeT_append, countBakeT_bakeOne,
      bakeAllAux_countT horacle matId bt' rest mname _ _, List.countP_cons]
    dsimp only
    by_cases hbt : (if suf = "metallic" then "EMIT" else bt) = bt'
    · rw [if_pos hbt]
      simp [hbt]
      omega
    · rw [if_neg hbt]
      simp [hbt]

lemma select_bakeAllAux (oracle : Nat → Bool) (matId : Nat) :
    ∀ (chs : List (String × String)) (mname : String) (g : NodeTree)
    (n : Nat),
    (bakeAllAux oracle matId mname chs g n).evs.filter isSelectEv = []
  | [], _, _, _ => rfl
  | (bt, suf) :: rest, mname, g, n => by
    rw [bakeAllAux]
    cases ho : (bakeOne oracle matId mname g n bt suf).ok
    · rw [if_neg Bool.false_ne_true]
      exact select_bakeOne oracle matId mname g n bt suf
    · rw [if_pos rfl]
      dsimp only
      rw [List.filter_append, select_bakeOne,
        select_bakeAllAux oracle matId rest mname _ _]
      rfl

lemma bakeGroups_countT {hf : List (Int × Int) → Int} {oracle : Nat → Bool}
    {matId : Nat} {bt' : String} (horacle : ∀ c, oracle c = true)
    (hone : ∀ (mname : String) (g : NodeTree) (n : Nat),
      countBakeT (bake_all_maps oracle matId mname g n).evs bt' = 1) :
    ∀ (groups : List (UVHash × List Nat)) (s : Scene) (n : Nat),
    (∀ e ∈ groups, e.2 ≠ []) →
    countBakeT (bakeGroups hf oracle matId groups s n).evs bt' =
      groups.length
  | [], _, _, _ => rfl
  | (h, []) :: rest, s, n, hne =>
    absurd rfl (hne (h, []) (List.mem_cons_self _ _))
  | (h, o :: os) :: rest, s, n, hne => by
    rw [bakeGroups]
    dsimp only
    rw [if_pos (by unfold bake_all_maps; rw [bakeAllAux_ok_true horacle])]
    dsimp only
    rw [countBakeT_append, countBakeT_append, hone,
      bakeGroups_countT horacle hone rest _ _
        (fun e he => hne e (List.mem_cons_of_mem _ he))]
    rw [show countBakeT [Ev.selectActive o, Ev.setupBakeNode matId] bt' = 0
      from rfl, List.length_cons]
    omega

lemma bakeGroups_selects {hf : List (Int × Int) → Int} {oracle : Nat → Bool}
    {matId : Nat} (horacle : ∀ c, oracle c = true) :
    ∀ (groups : List (UVHash × List Nat)) (s : Scene) (n : Nat),
    (∀ e ∈ groups, e.2 ≠ []) →
    (bakeGroups hf oracle matId groups s n).evs.filter isSelectEv =
      groups.map (fun e => Ev.selectActive (e.2.headD 0))
  | [], _, _, _ => rfl
  | (h, []) :: rest, s, n, hne =>
    absurd rfl (hne (h, []) (List.mem_cons_self _ _))
  | (h, o :: os) :: rest, s, n, hne => by
    rw [bakeGroups]
    dsimp only
    rw [if_pos (by unfold bake_all_maps; rw [bakeAllAux_ok_true horacle])]
    dsimp only
    rw [List.filter_append, List.filter_append]
    unfold bake_all_maps
    rw [select_bakeAllAux,
      bakeGroups_selects horacle rest _ _
        (fun e he => hne e (List.mem_cons_of_mem _ he))]
    rfl

/-! ### Lemmas: assembling the run -/

lemma execute_results (hf : List (Int × Int) → Int) (oracle : Nat → Bool)
    (s : Scene) : ((execute hf oracle s).results.map (·.1) =
      get_all_materials (duplicate_shared_materials hf s)) ∧
    (execute hf oracle s).success =
      ((execute hf oracle s).results.filter (·.2)).length := by
  unfold execute
  dsimp only
  split
  · next hmats => exact ⟨hmats.symm, rfl⟩
  · exact ⟨execMats_results hf oracle _ _ _, rfl⟩

lemma setup_metallic_snap (g : NodeTree) :
    (setup_metallic_nodes g).2 = g.links := by
  unfold setup_metallic_nodes
  dsimp only
  repeat' split
  all_goals rfl

lemma bakeOne_metallic_graph {oracle : Nat → Bool} {matId : Nat}
    {mname : String} {g : NodeTree} {n : Nat} {bt : String}
    (hlinks : g.links ≠ []) :
    (bakeOne oracle matId mname g n bt "metallic").graph =
      restore_material_links (setup_metallic_nodes g).1
        (setup_metallic_nodes g).2 := by
  unfold bakeOne
  rcases hsnap : (setup_metallic_nodes g).2 with _ | ⟨l, ls⟩
  · rw [setup_metallic_snap] at hsnap
    exact absurd hsnap hlinks
  · simp [hsnap]

lemma bake_material_countT {hf : List (Int × Int) → Int} {oracle : Nat → Bool}
    {s : Scene} {matId n : Nat} {bt' : String}
    (horacle : ∀ c, oracle c = true)
    (hone : ∀ (mname : String) (g : NodeTree) (n : Nat),
      countBakeT (bake_all_maps oracle matId mname g n).evs bt' = 1) :
    countBakeT (bake_material hf oracle s matId n).evs bt' =
      (uvGroups hf s.meshes matId).length := by
  unfold bake_material
  dsimp only
  split
  · next hg => rw [hg]; rfl
  · exact bakeGroups_countT horacle hone _ _ _
      (uvGroups_members_ne hf s.meshes matId)

lemma bake_material_selects {hf : List (Int × Int) → Int} {oracle : Nat → Bool}
    {s : Scene} {matId n : Nat} (horacle : ∀ c, oracle c = true) :
    (bake_material hf oracle s matId n).evs.filter isSelectEv =
      (uvGroups hf s.meshes matId).map
        (fun e => Ev.selectActive (e.2.headD 0)) := by
  unfold bake_material
  dsimp only
  split
  · next hg => rw [hg]; rfl
  · exact bakeGroups_selects horacle _ _ _
      (uvGroups_members_ne hf s.meshes matId)

lemma bake_all_maps_countT_one {oracle : Nat → Bool}
    (horacle : ∀ c, oracle c = true) (matId : Nat) (bt' : String)
    (hbt : bt' ∈ ["DIFFUSE", "NORMAL", "ROUGHNESS", "AO", "EMIT"])
    (mname : String) (g : NodeTree) (n : Nat) :
    countBakeT (bake_all_maps oracle matId mname g n).evs bt' = 1 := by
  unfold bake_all_maps
  rw [bakeAllAux_countT horacle]
  fin_cases hbt <;> decide

/-- Core of C10 : after the whole run, a baked material's graph still
holds the `Bake_Target` image node. -/
lemma execute_bakeTarget {hf : List (Int × Int) → Int} {oracle : Nat → Bool}
    {s : Scene} {m : Nat}
    (hm : m ∈ get_all_materials (duplicate_shared_materials hf s))
    (hgroups : uvGroups hf (duplicate_shared_materials hf s).meshes m ≠ [])
    (hpres : ((duplicate_shared_materials hf s).materials.find?
      (fun mo => mo.mid = m)).isSome = true) :
    containsBT (matGraph (execute hf oracle s).scene m) := by
  unfold execute
  dsimp only
  rw [if_neg (List.ne_nil_of_mem hm)]
  dsimp only
  have hmeshesq := execMats_meshes hf oracle
    (get_all_materials (duplicate_shared_materials hf s))
    (duplicate_shared_materials hf s) 0
  rw [cleanup_matGraph (by
    rw [hmeshesq]
    exact get_all_materials_ref hm)]
  obtain ⟨L1, L2, hsplit⟩ := List.append_of_mem hm
  have hnodup := get_all_materials_nodup (duplicate_shared_materials hf s)
  rw [hsplit] at hnodup
  have hmnotin : m ∉ L2 := by
    have h2 := (List.Nodup.of_append_right hnodup)
    exact (List.nodup_cons.mp h2).1
  rw [hsplit, execMats_append, execMats]
  dsimp only
  rw [execMats_matGraph_notin L2 _ _ hmnotin]
  apply bake_material_establishBT
  · rw [execMats_presence]
    exact hpres
  · rw [execMats_meshes]
    exact hgroups

/-! ### Lemmas: sentinel returns of `get_uv_hash` -/

lemma get_uv_hash_noUV (hf : List (Int × Int) → Int) (m : Mesh)
    (mat : Option Nat) (h : m.uv_layers = []) :
    get_uv_hash hf m mat = .noUV := by
  unfold get_uv_hash
  rw [if_pos h]

lemma get_uv_hash_notFound (hf : List (Int × Int) → Int) (m : Mesh)
    (mat : Option Nat) (h : m.uv_layers ≠ [])
    (hm : ¬ mat ∈ m.material_slots.map (·.material)) :
    get_uv_hash hf m mat = .materialNotFound := by
  unfold get_uv_hash
  rw [if_neg h, if_pos hm]

lemma get_uv_hash_empty (hf : List (Int × Int) → Int) (m : Mesh)
    (mat : Option Nat) (h : m.uv_layers ≠ [])
    (hm : mat ∈ m.material_slots.map (·.material))
    (hc : m.polygons.flatMap
      (polyContrib m.material_slots (m.uv_layers.headD []) mat) = []) :
    get_uv_hash hf m mat = .emptyUV := by
  unfold get_uv_hash
  rw [if_neg h, if_neg (by simpa using hm)]
  simp only [hc]
  rfl

lemma restore_keeps_nonEV {g : NodeTree} {snap : List SLink} {nd : SNode}
    (hx : nd ∈ g.nodes) (h1 : nd.ntype ≠ "EMISSION")
    (h2 : nd.ntype ≠ "VALUE") :
    nd ∈ (restore_material_links g snap).nodes := by
  unfold restore_material_links
  rw [readdLinks_nodes]
  unfold removeTemp
  dsimp only
  refine List.mem_filter.mpr ⟨hx, ?_⟩
  simp [h1, h2]

/-! ## Claim theorems -/

/-- Claim C1: the spec requires that after
`duplicate_shared_materials`, two usages of one material with differing
non-sentinel fingerprints reference distinct (cloned) materials.  The
code violates this: grouping is keyed on `(material, uv_hash)`, so
divergent-fingerprint usages fall into singleton groups that the
`len(usages) > 1` guard skips, and the clone branch never runs.
Evaluated at a two-mesh scene sharing material `0` with differing
non-sentinel fingerprints: both slots still reference material `0` and
no clone was created. -/
theorem c1_resolver_never_splits_divergent_uv :
    get_uv_hash hfTest meshTA (some 0) ≠
      get_uv_hash hfTest meshTBd (some 0) ∧
    (get_uv_hash hfTest meshTA (some 0)).isSentinel = false ∧
    (get_uv_hash hfTest meshTBd (some 0)).isSentinel = false ∧
    slotMat (duplicate_shared_materials hfTest sceneDiffT) 0 0 = some 0 ∧
    slotMat (duplicate_shared_materials hfTest sceneDiffT) 1 0 = some 0 ∧
    (duplicate_shared_materials hfTest sceneDiffT).materials.map (·.mid) =
      [0] := by
  decide

/-- Claim C2, counterexample: the snapshot → reroute → restore cycle is
not node-identical for every material.  `restore_material_links`
removes every `VALUE`/`EMISSION` node, so a pre-existing artist-placed
Value node (id 2 in `gArtistT`) is destroyed by the round trip. -/
theorem c2_roundtrip_counterexample :
    (⟨2, "VALUE", "Value", false, 5⟩ : SNode) ∈ gArtistT.nodes ∧
    (⟨2, "VALUE", "Value", false, 5⟩ : SNode) ∉
      (restore_material_links (setup_metallic_nodes gArtistT).1
        (setup_metallic_nodes gArtistT).2).nodes := by
  decide

/-- Claim C2, amended: for a material whose graph has in-range node ids,
in-range link endpoints, no pre-existing emission or value nodes, a
`Material Output` node, a principled node, and at most one link per
input socket, the cycle snapshot → `setup_metallic_nodes` →
`restore_material_links` restores the node list exactly and the link
set exactly; and on the metallic channel the orchestrator's graph after
`bakeOne` equals that same restored graph whether the bake call
succeeded or raised, provided the snapshot is non-empty. -/
theorem c2_metallic_roundtrip_restores_graph :
    ∀ g : NodeTree,
    (∀ nd ∈ g.nodes, nd.nid < g.nextId) →
    (∀ l ∈ g.links, l.fromNode < g.nextId ∧ l.toNode < g.nextId) →
    (∀ nd ∈ g.nodes, nd.ntype ≠ "EMISSION" ∧ nd.ntype ≠ "VALUE") →
    (g.nodes.find? (fun nd => nd.nm = "Material Output")).isSome = true →
    (g.nodes.find? (fun nd => nd.ntype = "BSDF_PRINCIPLED")).isSome = true →
    g.links.Pairwise
      (fun a b => ¬(a.toNode = b.toNode ∧ a.toSock = b.toSock)) →
    (setup_metallic_nodes g).2 = g.links ∧
    (restore_material_links (setup_metallic_nodes g).1
      (setup_metallic_nodes g).2).nodes = g.nodes ∧
    (∀ l, l ∈ (restore_material_links (setup_metallic_nodes g).1
      (setup_metallic_nodes g).2).links ↔ l ∈ g.links) ∧
    (∀ (oracle : Nat → Bool) (n matId : Nat) (mname bt : String),
      g.links ≠ [] →
      (bakeOne oracle matId mname g n bt "metallic").graph.nodes =
        g.nodes ∧
      ∀ l, l ∈ (bakeOne oracle matId mname g n bt "metallic").graph.links
        ↔ l ∈ g.links) := by
  intro g H0 H1 H2 H3 H4 H5
  have h := roundtrip_aux g H0 H1 H2 H3 H4 H5
  refine ⟨h.1, h.2.1, h.2.2, ?_⟩
  intro oracle n matId mname bt hlinks
  rw [bakeOne_metallic_graph hlinks]
  exact ⟨h.2.1, h.2.2⟩

theorem c2_metallic_roundtrip_restores_graph_witness :
    (restore_material_links (setup_metallic_nodes gWF).1
      (setup_metallic_nodes gWF).2).nodes = gWF.nodes :=
  (c2_metallic_roundtrip_restores_graph gWF (by decide) (by decide)
    (by decide) (by decide) (by decide) (by decide)).2.1

/-- Claim C3: the spec requires `restore_material_links` to run exactly
once per `setup_metallic_nodes` call regardless of how many links the
snapshot contains.  The code's `finally` block guards the restore with
`if original_links:`, and an empty Python list is falsy — so for a
material whose graph has zero links the reroute runs but the restore
never does, leaving the emission scratch node in the graph.  Evaluated
at a one-mesh scene whose material graph has no links, with every bake
call succeeding. -/
theorem c3_restore_skipped_on_empty_snapshot :
    (execute hfTest oracleT sceneZT).evs.count (Ev.setupMetallic 0) = 1 ∧
    (execute hfTest oracleT sceneZT).evs.count (Ev.restoreLinks 0) = 0 ∧
    ∃ nd ∈ (matGraph (execute hfTest oracleT sceneZT).scene 0).nodes,
      nd.ntype = "EMISSION" := by
  decide

/-- Claim C4: after `duplicate_shared_materials`, two distinct usages
of one original material with equal non-sentinel fingerprints reference
one and the same material object, now renamed as a master (its name is
the original name extended around a `_MASTER_` marker); and with every
bake call succeeding, `bake_material` emits exactly one bake per
channel per UV-group — `N` groups produce `N` bakes of each channel —
selecting exactly each group's first mesh as the active bake target. -/
theorem c4_equal_fp_share_master_bake_once_per_group :
    (∀ (hf : List (Int × Int) → Int) (s : Scene) (i j k l mid : Nat)
       (v : Int) (mi mk : Mesh) (sli slk : MSlot) (nm0 : String),
      s.meshes[i]? = some mi → mi.material_slots[j]? = some sli →
      sli.material = some mid →
      s.meshes[k]? = some mk → mk.material_slots[l]? = some slk →
      slk.material = some mid → (i, j) ≠ (k, l) →
      get_uv_hash hf mi (some mid) = .h v →
      get_uv_hash hf mk (some mid) = .h v →
      matNameQ s mid = some nm0 →
      slotMat (duplicate_shared_materials hf s) i j = some mid ∧
      slotMat (duplicate_shared_materials hf s) k l = some mid ∧
      ∃ a b, matNameQ (duplicate_shared_materials hf s) mid =
        some (nm0 ++ a ++ "_MASTER_" ++ b)) ∧
    (∀ (hf : List (Int × Int) → Int) (oracle : Nat → Bool) (s : Scene)
       (matId n : Nat), (∀ c, oracle c = true) →
      (∀ bt ∈ ["DIFFUSE", "NORMAL", "ROUGHNESS", "AO", "EMIT"],
        countBakeT (bake_material hf oracle s matId n).evs bt =
          (uvGroups hf s.meshes matId).length) ∧
      (bake_material hf oracle s matId n).evs.filter isSelectEv =
        (uvGroups hf s.meshes matId).map
          (fun e => Ev.selectActive (e.2.headD 0))) := by
  constructor
  · intro hf s i j k l mid v mi mk sli slk nm0 h1 h2 h3 h4 h5 h6 hne hh1
      hh2 hnm
    exact resolve_pair_master h1 h2 h3 h4 h5 h6 hne hh1 hh2 hnm
  · intro hf oracle s matId n horacle
    constructor
    · intro bt hbt
      exact bake_material_countT horacle
        (bake_all_maps_countT_one horacle matId bt hbt)
    · exact bake_material_selects horacle

theorem c4_equal_fp_share_master_bake_once_per_group_witness :
    (slotMat (duplicate_shared_materials hfTest sceneSameT) 0 0 = some 0 ∧
     slotMat (duplicate_shared_materials hfTest sceneSameT) 1 0 = some 0 ∧
     ∃ a b, matNameQ (duplicate_shared_materials hfTest sceneSameT) 0 =
       some ("M" ++ a ++ "_MASTER_" ++ b)) ∧
    countBakeT (bake_material hfTest oracleT sceneSameT 0 0).evs
      "DIFFUSE" = (uvGroups hfTest sceneSameT.meshes 0).length :=
  ⟨c4_equal_fp_share_master_bake_once_per_group.1 hfTest sceneSameT
      0 0 1 0 0 26727 meshTA meshTB ⟨some 0⟩ ⟨some 0⟩ "M"
      (by decide) (by decide) (by decide) (by decide) (by decide)
      (by decide) (by decide) (by decide) (by decide) (by decide),
    (c4_equal_fp_share_master_bake_once_per_group.2 hfTest oracleT
      sceneSameT 0 0 (fun _ => rfl)).1 "DIFFUSE" (by decide)⟩

/-- Claim C5: the fingerprint depends only on the multiset of rounded
UV coordinates collected from the faces: reordering the polygon list
(any face-traversal order) leaves `get_uv_hash` unchanged, because the
coordinate list is sorted lexicographically before hashing. -/
theorem c5_fingerprint_traversal_order_independent :
    ∀ (hf : List (Int × Int) → Int) (nm : String) (slots : List MSlot)
      (uvs : List (List (ℚ × ℚ))) (p1 p2 : List Polygon)
      (mat : Option Nat), p1.Perm p2 →
    get_uv_hash hf ⟨nm, slots, uvs, p1⟩ mat =
      get_uv_hash hf ⟨nm, slots, uvs, p2⟩ mat :=
  fun hf nm slots uvs _ _ mat hp =>
    get_uv_hash_perm_aux hf nm slots uvs mat hp

theorem c5_fingerprint_traversal_order_independent_witness :
    get_uv_hash hfTest
        ⟨"W", [⟨some 0⟩], [[(0, 0), (1, 1)]], [⟨0, [1]⟩, ⟨0, [0]⟩]⟩
        (some 0) =
      get_uv_hash hfTest
        ⟨"W", [⟨some 0⟩], [[(0, 0), (1, 1)]], [⟨0, [0]⟩, ⟨0, [1]⟩]⟩
        (some 0) :=
  c5_fingerprint_traversal_order_independent hfTest "W" [⟨some 0⟩]
    [[(0, 0), (1, 1)]] [⟨0, [1]⟩, ⟨0, [0]⟩] [⟨0, [0]⟩, ⟨0, [1]⟩]
    (some 0) (List.Perm.swap _ _ _)

/-- Claim C6: `get_uv_hash` returns `no_uv` when the mesh has no UV
layer; `material_not_found` when a UV layer exists but the material is
in no slot; `empty_uv` when a UV layer exists, the material is present,
and no face contributes coordinates.  During resolver grouping no slot
is ever reassigned (in particular sentinel usages are never
deduplicated or split), and a material whose groups are all
sentinel-keyed or singletons — including several usages sharing the
same sentinel — is never renamed as a master. -/
theorem c6_sentinel_fingerprints :
    (∀ (hf : List (Int × Int) → Int) (m : Mesh) (mat : Option Nat),
      m.uv_layers = [] → get_uv_hash hf m mat = .noUV) ∧
    (∀ (hf : List (Int × Int) → Int) (m : Mesh) (mat : Option Nat),
      m.uv_layers ≠ [] → mat ∉ m.material_slots.map (·.material) →
      get_uv_hash hf m mat = .materialNotFound) ∧
    (∀ (hf : List (Int × Int) → Int) (m : Mesh) (mat : Option Nat),
      m.uv_layers ≠ [] → mat ∈ m.material_slots.map (·.material) →
      m.polygons.flatMap
        (polyContrib m.material_slots (m.uv_layers.headD []) mat) = [] →
      get_uv_hash hf m mat = .emptyUV) ∧
    (∀ (hf : List (Int × Int) → Int) (s : Scene) (i j : Nat),
      slotMat (duplicate_shared_materials hf s) i j = slotMat s i j) ∧
    (∀ (hf : List (Int × Int) → Int) (s : Scene) (mid : Nat),
      (∀ e ∈ buildUsages hf s, e.1.1 = mid →
        e.1.2.isSentinel = true ∨ ¬ 1 < e.2.length) →
      matNameQ (duplicate_shared_materials hf s) mid = matNameQ s mid) := by
  refine ⟨get_uv_hash_noUV, get_uv_hash_notFound, get_uv_hash_empty,
    resolve_slotMat, ?_⟩
  intro hf s mid hno
  apply resolve_name_unchanged
  intro e he hemid hq
  rcases hno e he hemid with h | h
  · rw [hq.2] at h
    exact Bool.false_ne_true h
  · exact h hq.1

theorem c6_sentinel_fingerprints_witness :
    get_uv_hash hfTest meshNoUV_A (some 0) = .noUV ∧
    get_uv_hash hfTest meshTA (some 7) = .materialNotFound ∧
    get_uv_hash hfTest ⟨"E", [⟨some 0⟩], [[(0, 0)]], []⟩ (some 0) =
      .emptyUV ∧
    slotMat (duplicate_shared_materials hfTest sceneNoUVT) 0 0 = some 0 ∧
    matNameQ (duplicate_shared_materials hfTest sceneNoUVT) 0 =
      matNameQ sceneNoUVT 0 :=
  ⟨c6_sentinel_fingerprints.1 hfTest meshNoUV_A (some 0) (by decide),
   c6_sentinel_fingerprints.2.1 hfTest meshTA (some 7) (by decide)
     (by decide),
   c6_sentinel_fingerprints.2.2.1 hfTest ⟨"E", [⟨some 0⟩], [[(0, 0)]], []⟩
     (some 0) (by decide) (by decide) (by decide),
   c6_sentinel_fingerprints.2.2.2.1 hfTest sceneNoUVT 0 0,
   c6_sentinel_fingerprints.2.2.2.2 hfTest sceneNoUVT 0 (by decide)⟩

/-- Claim C7, counterexample: in the two-mesh identical-UV scenario the
resolver renames the shared material to `M_MASTER_A`, so the baked
diffuse file is `M_MASTER_A_diffuse.png` — the file `M_A_diffuse.png`
the claim promises is never produced. -/
theorem c7_naming_counterexample :
    Ev.saveImage "M_A_diffuse.png" ∉
      (execute hfTest oracleT sceneSameT).evs ∧
    Ev.saveImage "M_MASTER_A_diffuse.png" ∈
      (execute hfTest oracleT sceneSameT).evs := by
  decide

/-- Claim C7, amended: the per-channel output name is
`base_owner_channel` when the name contains an underscore (base and
owner decomposed from the name) and `materialName_channel` otherwise —
both branches reconstitute exactly `materialName_channel` — and in the
two-meshes-identical-UV scenario the master is renamed `M_MASTER_A`
and the baked diffuse file is `M_MASTER_A_diffuse.png`. -/
theorem c7_output_naming_amended :
    (∀ nameL sufL : List Char, mapNameL nameL sufL = nameL ++ '_' :: sufL) ∧
    (∀ nm suf : String, mapName nm suf = ⟨nm.data ++ '_' :: suf.data⟩) ∧
    ((duplicate_shared_materials hfTest sceneSameT).materials.map
        (·.mname) = ["M_MASTER_A"] ∧
      mapName "M_MASTER_A" "diffuse" = "M_MASTER_A_diffuse" ∧
      Ev.saveImage "M_MASTER_A_diffuse.png" ∈
        (execute hfTest oracleT sceneSameT).evs) :=
  ⟨mapNameL_eq,
   fun nm suf => by unfold mapName; rw [mapNameL_eq],
   by decide⟩

/-- Claim C8: a failed bake call makes the channel loop stop — the
channels attempted are exactly those up to and including the first
failing call, and the loop reports success only when every channel's
call succeeded; and the run loop still processes every material,
producing one result entry per material, with the success count being
exactly the number of materials whose bake succeeded. -/
theorem c8_channel_failure_scoped_to_material :
    (∀ (oracle : Nat → Bool) (matId : Nat) (mname : String) (g : NodeTree)
       (n : Nat), (bake_all_maps oracle matId mname g n).ok = true ↔
      ∀ d < BAKE_TYPES.length, oracle (n + d) = true) ∧
    (∀ (oracle : Nat → Bool) (matId : Nat) (mname : String) (g : NodeTree)
       (n : Nat), countBake (bake_all_maps oracle matId mname g n).evs =
      firstFailCount oracle n BAKE_TYPES.length) ∧
    (∀ (hf : List (Int × Int) → Int) (oracle : Nat → Bool) (s : Scene),
      (execute hf oracle s).results.map (·.1) =
        get_all_materials (duplicate_shared_materials hf s) ∧
      (execute hf oracle s).success =
        ((execute hf oracle s).results.filter (·.2)).length) :=
  ⟨fun oracle matId mname g n =>
      bakeAllAux_ok_iff oracle matId mname BAKE_TYPES g n,
   fun oracle matId mname g n =>
      bakeAllAux_countBake oracle matId mname BAKE_TYPES g n,
   fun hf oracle s => execute_results hf oracle s⟩

theorem c8_channel_failure_scoped_to_material_witness :
    ((bake_all_maps (fun c => decide (c ≠ 2)) 0 "M" gWF 0).ok = true ↔
      ∀ d < BAKE_TYPES.length, (fun c => decide (c ≠ 2)) (0 + d) = true) ∧
    countBake (bake_all_maps (fun c => decide (c ≠ 2)) 0 "M" gWF 0).evs =
      firstFailCount (fun c => decide (c ≠ 2)) 0 BAKE_TYPES.length ∧
    (execute hfTest (fun c => decide (c ≠ 2)) sceneSameT).results.map
        (·.1) =
      get_all_materials (duplicate_shared_materials hfTest sceneSameT) :=
  ⟨c8_channel_failure_scoped_to_material.1 (fun c => decide (c ≠ 2))
      0 "M" gWF 0,
   c8_channel_failure_scoped_to_material.2.1 (fun c => decide (c ≠ 2))
      0 "M" gWF 0,
   (c8_channel_failure_scoped_to_material.2.2 hfTest
      (fun c => decide (c ≠ 2)) sceneSameT).1⟩

/-- Claim C9: polygons whose `material_index` is out of range for the
mesh's slot list are skipped by the explicit bounds check — they
contribute no coordinates, and the fingerprint of a mesh equals the
fingerprint of the same mesh with all out-of-range polygons removed, so
no out-of-range slot access can occur. -/
theorem c9_out_of_range_polygons_contribute_nothing :
    (∀ (hf : List (Int × Int) → Int) (nm : String) (slots : List MSlot)
       (uvs : List (List (ℚ × ℚ))) (polys : List Polygon)
       (mat : Option Nat),
      get_uv_hash hf ⟨nm, slots, uvs,
          polys.filter (fun p => p.material_index < slots.length)⟩ mat =
        get_uv_hash hf ⟨nm, slots, uvs, polys⟩ mat) ∧
    (∀ (slots : List MSlot) (uvdata : List (ℚ × ℚ)) (mat : Option Nat)
       (p : Polygon), ¬ p.material_index < slots.length →
      polyContrib slots uvdata mat p = []) :=
  ⟨get_uv_hash_filter_valid, polyContrib_invalid⟩

theorem c9_out_of_range_polygons_contribute_nothing_witness :
    get_uv_hash hfTest ⟨"W", [⟨some 0⟩], [[(0, 0)]],
        ([⟨5, [0]⟩, ⟨0, [0]⟩] : List Polygon).filter
          (fun p => p.material_index < ([⟨some 0⟩] : List MSlot).length)⟩
      (some 0) =
      get_uv_hash hfTest ⟨"W", [⟨some 0⟩], [[(0, 0)]],
        [⟨5, [0]⟩, ⟨0, [0]⟩]⟩ (some 0) ∧
    polyContrib [⟨some 0⟩] [(0, 0)] (some 0) ⟨5, [0]⟩ = [] :=
  ⟨c9_out_of_range_polygons_contribute_nothing.1 hfTest "W" [⟨some 0⟩]
      [[(0, 0)]] [⟨5, [0]⟩, ⟨0, [0]⟩] (some 0),
   c9_out_of_range_polygons_contribute_nothing.2 [⟨some 0⟩] [(0, 0)]
      (some 0) ⟨5, [0]⟩ (by decide)⟩

/-- Claim C10: `restore_material_links` removes only emission and value
nodes, so the `Bake_Target` image node survives it; and after a
completed run of `execute` (per-material variant), every material that
was baked — it is referenced, has a non-sentinel UV group, and exists
in the registry — still contains the image-texture node named
`Bake_Target` that `setup_bake_node` inserted: the run permanently adds
this node to each baked material's graph. -/
theorem c10_bake_target_node_persists :
    (∀ (g : NodeTree) (snap : List SLink) (nd : SNode), nd ∈ g.nodes →
      nd.ntype ≠ "EMISSION" → nd.ntype ≠ "VALUE" →
      nd ∈ (restore_material_links g snap).nodes) ∧
    (∀ (hf : List (Int × Int) → Int) (oracle : Nat → Bool) (s : Scene)
       (m : Nat),
      m ∈ get_all_materials (duplicate_shared_materials hf s) →
      uvGroups hf (duplicate_shared_materials hf s).meshes m ≠ [] →
      ((duplicate_shared_materials hf s).materials.find?
        (fun mo => mo.mid = m)).isSome = true →
      ∃ nd ∈ (matGraph (execute hf oracle s).scene m).nodes,
        nd.nm = "Bake_Target" ∧ nd.ntype = "TEX_IMAGE") :=
  ⟨fun _ _ _ hx h1 h2 => restore_keeps_nonEV hx h1 h2,
   fun _ _ _ _ hm hgroups hpres => execute_bakeTarget hm hgroups hpres⟩

theorem c10_bake_target_node_persists_witness :
    ∃ nd ∈ (matGraph (execute hfTest oracleT sceneSameT).scene 0).nodes,
      nd.nm = "Bake_Target" ∧ nd.ntype = "TEX_IMAGE" :=
  c10_bake_target_node_persists.2 hfTest oracleT sceneSameT 0
    (by decide) (by decide) (by decide)

end BlenderBake
